import Mathlib

/-!
Verification development for the STREAM transport core of the
`ilp-packet-rs` repository (crate `interledger-stream` plus the older
top-level `src/stream` module).

Bytes are modelled as natural numbers (`List Nat`, each element intended
below 256); machine `u64` values are naturals with explicit comparisons
against `2 ^ 64`.  Fallible parsing returns `Option` / `Except`.

The OER helpers (`put_var_uint`, `read_var_octet_string`, ...),
`Address`, the ILP packet types and the crypto primitives live in crates
of this repository whose sources are not present under `src/`
(`interledger-packet`, `interledger-stream/src/crypto.rs`); those are
modelled from the spec, as marked on each definition.  Everything else
is translated directly from the Rust sources named on each definition.
-/

/-- `u64::MAX`. -/
def u64Max : Nat := 2 ^ 64 - 1

/-- Fuel-driven helper for `natToBEBytes` (structural recursion so the
kernel can evaluate it; any fuel at least `n` gives the fixpoint). -/
def natToBEBytesAux : Nat → Nat → List Nat
  | 0, _ => []
  | fuel + 1, n => if n = 0 then [] else natToBEBytesAux fuel (n / 256) ++ [n % 256]

/-- Modelled from the spec (section 4.B, OER codec of the
`interledger-packet` crate, not under `src/`): minimal big-endian byte
representation of a natural number (`0` maps to the empty list). -/
def natToBEBytes (n : Nat) : List Nat :=
  natToBEBytesAux n n

/-- Modelled from the spec (section 4.B): the content bytes of a
canonical OER variable-length unsigned integer: minimal big-endian
bytes, with `0` encoded as the single byte `0x00`. -/
def varUintBytes (n : Nat) : List Nat :=
  if n = 0 then [0] else natToBEBytes n

/-- Big-endian interpretation of a byte list. -/
def beBytesToNat (l : List Nat) : Nat :=
  l.foldl (fun acc b => acc * 256 + b) 0

/-- Modelled from the spec (section 4.B): the OER length determinant.
Lengths `0`-`127` in one byte; larger lengths use the high-bit
length-of-length form. -/
def lenDeterminant (n : Nat) : List Nat :=
  if n < 128 then [n] else (128 + (natToBEBytes n).length) :: natToBEBytes n

/-- Modelled from the spec (section 4.B): `put_var_octet_string` of the
`interledger-packet` OER module — length determinant followed by the
content bytes. -/
def putVarOctetString (xs : List Nat) : List Nat :=
  lenDeterminant xs.length ++ xs

/-- Modelled from the spec (section 4.B): `put_var_uint` — the value's
minimal big-endian bytes written as a var octet string. -/
def putVarUint (n : Nat) : List Nat :=
  putVarOctetString (varUintBytes n)

/-- Modelled from the spec (section 4.B): `read_var_octet_string`,
together with how many input bytes the reader consumed when it fails
(`std::io::Read` for byte slices does not consume on a failed
`read_exact`, so a failed read leaves the reader after the bytes that
were successfully read before it).  Returns the parsed contents (or
`none` on failure) and the remaining buffer.  A length-of-length of `0`
(length byte `0x80`) is modelled as a failure; the source would panic
inside `byteorder` there. -/
def readVarOctetStringConsumed : List Nat → Option (List Nat) × List Nat
  | [] => (none, [])
  | l :: rest =>
    if l < 128 then
      if rest.length < l then (none, rest) else (some (rest.take l), rest.drop l)
    else
      let k := l - 128
      if k = 0 then (none, rest)
      else if rest.length < k then (none, rest)
      else
        let len := beBytesToNat (rest.take k)
        let r2 := rest.drop k
        if r2.length < len then (none, r2) else (some (r2.take len), r2.drop len)

/-- Modelled from the spec (section 4.B): `read_var_octet_string` as a
pure parser — contents and remaining buffer on success. -/
def readVarOctetString (buf : List Nat) : Option (List Nat × List Nat) :=
  match readVarOctetStringConsumed buf with
  | (some c, r) => some (c, r)
  | (none, _) => none

/-- Modelled from the spec (section 4.B): `read_var_uint` — a var octet
string of one to eight bytes, interpreted big-endian as a `u64`. -/
def readVarUint (buf : List Nat) : Option (Nat × List Nat) :=
  match readVarOctetString buf with
  | some (c, rest) =>
    if c.length = 0 ∨ 8 < c.length then none else some (beBytesToNat c, rest)
  | none => none

/-- STREAM error codes, from `packet.rs` (`enum ErrorCode`, values
`0x01`-`0x09` plus a catch-all `Unknown` whose `repr(u8)` discriminant
is `0x0A`). -/
inductive ErrorCode where
  | noError
  | internalError
  | endpointBusy
  | flowControlError
  | streamIdError
  | streamStateError
  | frameFormatError
  | protocolViolation
  | applicationError
  | unknownCode

deriving DecidableEq, Repr

/-- `code as u8`: the `repr(u8)` discriminant written by `put_contents`. -/
def ErrorCode.toByte : ErrorCode → Nat
  | .noError => 1
  | .internalError => 2
  | .endpointBusy => 3
  | .flowControlError => 4
  | .streamIdError => 5
  | .streamStateError => 6
  | .frameFormatError => 7
  | .protocolViolation => 8
  | .applicationError => 9
  | .unknownCode => 10

/-- `impl From of u8 for ErrorCode` from `packet.rs`: bytes outside
`0x01`-`0x09` map to `Unknown`. -/
def ErrorCode.ofByte (b : Nat) : ErrorCode :=
  if b = 1 then .noError
  else if b = 2 then .internalError
  else if b = 3 then .endpointBusy
  else if b = 4 then .flowControlError
  else if b = 5 then .streamIdError
  else if b = 6 then .streamStateError
  else if b = 7 then .frameFormatError
  else if b = 8 then .protocolViolation
  else if b = 9 then .applicationError
  else .unknownCode

/-- Modelled from the spec (the `interledger-packet` crate is not under
`src/`): the ILP packet type carried in byte two of a STREAM packet.
`Prepare` is 12, `Fulfill` 13, `Reject` 14, matching ILP's numeric
values (spec section 3, `ilp_packet_type`). -/
inductive IlpPacketType where
  | prepare
  | fulfill
  | reject

deriving DecidableEq, Repr

def IlpPacketType.toByte : IlpPacketType → Nat
  | .prepare => 12
  | .fulfill => 13
  | .reject => 14

/-- Modelled from the spec: `PacketType::try_from`, failing on any byte
other than 12, 13, 14. -/
def IlpPacketType.ofByte (b : Nat) : Option IlpPacketType :=
  if b = 12 then some .prepare
  else if b = 13 then some .fulfill
  else if b = 14 then some .reject
  else none

/-- UTF-8 well-formedness of a byte list, mirroring Rust's
`str::from_utf8` (continuation ranges, the E0/ED and F0/F4 special
ranges excluding overlong forms and surrogates). -/
def validUtf8 : List Nat → Bool
  | [] => true
  | b :: rest =>
    if b < 128 then validUtf8 rest
    else if b < 194 then false
    else if b < 224 then
      match rest with
      | c1 :: r => 128 ≤ c1 && c1 < 192 && validUtf8 r
      | [] => false
    else if b < 240 then
      match rest with
      | c1 :: c2 :: r =>
        (if b = 224 then 160 ≤ c1 && c1 < 192
         else if b = 237 then 128 ≤ c1 && c1 < 160
         else 128 ≤ c1 && c1 < 192)
          && (128 ≤ c2 && c2 < 192) && validUtf8 r
      | _ => false
    else if b < 245 then
      match rest with
      | c1 :: c2 :: c3 :: r =>
        (if b = 240 then 144 ≤ c1 && c1 < 192
         else if b = 244 then 128 ≤ c1 && c1 < 144
         else 128 ≤ c1 && c1 < 192)
          && (128 ≤ c2 && c2 < 192) && (128 ≤ c3 && c3 < 192) && validUtf8 r
      | _ => false
    else false

/-- Modelled from the spec (section 3; `Address::try_from` of the
`interledger-packet` crate is not under `src/`): a byte allowed in a
textual ILP address — ASCII alphanumerics, underscore, tilde, hyphen
and the dot separator. -/
def isAddressByte (b : Nat) : Bool :=
  (48 ≤ b && b ≤ 57) || (65 ≤ b && b ≤ 90) || (97 ≤ b && b ≤ 122)
    || b = 95 || b = 126 || b = 45 || b = 46

/-- Modelled from the spec (section 3): validity of a textual ILP
address — non-empty, allowed bytes only, not starting or ending with
the dot separator. -/
def isValidAddress (a : List Nat) : Bool :=
  !(a.isEmpty) && a.all isAddressByte
    && !(a.head? == some 46) && !(a.getLast? == some 46)

/-- The STREAM frame sum from `packet.rs` (`enum Frame` and the
per-variant structs).  Text fields (`message`, `source_asset_code`) and
the address are byte lists; numeric fields are `u64` (or `u8` for
`source_asset_scale`) values as naturals. -/
inductive Frame where
  | connectionClose (code : ErrorCode) (message : List Nat)
  | connectionNewAddress (sourceAccount : List Nat)
  | connectionAssetDetails (sourceAssetCode : List Nat) (sourceAssetScale : Nat)
  | connectionMaxData (maxOffset : Nat)
  | connectionDataBlocked (maxOffset : Nat)
  | connectionMaxStreamId (maxStreamId : Nat)
  | connectionStreamIdBlocked (maxStreamId : Nat)
  | streamClose (streamId : Nat) (code : ErrorCode) (message : List Nat)
  | streamMoney (streamId : Nat) (shares : Nat)
  | streamMaxMoney (streamId : Nat) (receiveMax : Nat) (totalReceived : Nat)
  | streamMoneyBlocked (streamId : Nat) (sendMax : Nat) (totalSent : Nat)
  | streamData (streamId : Nat) (offset : Nat) (data : List Nat)
  | streamMaxData (streamId : Nat) (maxOffset : Nat)
  | streamDataBlocked (streamId : Nat) (maxOffset : Nat)
  | unknown

deriving DecidableEq, Repr

/-- The `FrameType` discriminant byte written by
`StreamPacketBuilder::build` for each variant (`enum FrameType` in
`packet.rs`); `unknown` carries the `repr(u8)` value `0x17` that the
builder never writes. -/
def Frame.typeByte : Frame → Nat
  | .connectionClose .. => 1
  | .connectionNewAddress .. => 2
  | .connectionMaxData .. => 3
  | .connectionDataBlocked .. => 4
  | .connectionMaxStreamId .. => 5
  | .connectionStreamIdBlocked .. => 6
  | .connectionAssetDetails .. => 7
  | .streamClose .. => 16
  | .streamMoney .. => 17
  | .streamMaxMoney .. => 18
  | .streamMoneyBlocked .. => 19
  | .streamData .. => 20
  | .streamMaxData .. => 21
  | .streamDataBlocked .. => 22
  | .unknown => 23

/-- The per-variant `put_contents` bodies from `packet.rs` (the
`SerializableFrame` impls), in source field order.  `unknown` has no
serialization (the builder skips it); it contributes `[]` here but is
never wrapped by `encodeFrame`. -/
def Frame.putContents : Frame → List Nat
  | .connectionClose code message => code.toByte :: putVarOctetString message
  | .connectionNewAddress sourceAccount => putVarOctetString sourceAccount
  | .connectionAssetDetails sourceAssetCode sourceAssetScale =>
    putVarOctetString sourceAssetCode ++ [sourceAssetScale]
  | .connectionMaxData maxOffset => putVarUint maxOffset
  | .connectionDataBlocked maxOffset => putVarUint maxOffset
  | .connectionMaxStreamId maxStreamId => putVarUint maxStreamId
  | .connectionStreamIdBlocked maxStreamId => putVarUint maxStreamId
  | .streamClose streamId code message =>
    putVarUint streamId ++ code.toByte :: putVarOctetString message
  | .streamMoney streamId shares => putVarUint streamId ++ putVarUint shares
  | .streamMaxMoney streamId receiveMax totalReceived =>
    putVarUint streamId ++ putVarUint receiveMax ++ putVarUint totalReceived
  | .streamMoneyBlocked streamId sendMax totalSent =>
    putVarUint streamId ++ putVarUint sendMax ++ putVarUint totalSent
  | .streamData streamId offset data =>
    putVarUint streamId ++ putVarUint offset ++ putVarOctetString data
  | .streamMaxData streamId maxOffset => putVarUint streamId ++ putVarUint maxOffset
  | .streamDataBlocked streamId maxOffset => putVarUint streamId ++ putVarUint maxOffset
  | .unknown => []

/-- One loop iteration of `StreamPacketBuilder::build`: the type byte
followed by the contents as a var octet string — except for
`Frame::Unknown`, which the builder skips (`continue`), emitting no
bytes. -/
def encodeFrame (f : Frame) : List Nat :=
  match f with
  | .unknown => []
  | _ => f.typeByte :: putVarOctetString f.putContents

/-- The frame section of `StreamPacketBuilder::build`: each frame's
bytes, in order. -/
def encodeFrames (frames : List Frame) : List Nat :=
  frames.foldr (fun f acc => encodeFrame f ++ acc) []

/-- `ConnectionCloseFrame::read_contents`: error-code byte, then the
message as a var octet string that must be valid UTF-8.  Trailing bytes
beyond the parsed fields are ignored, as in the source. -/
def connectionCloseReadContents (contents : List Nat) : Option Frame :=
  match contents with
  | [] => none
  | c :: rest =>
    match readVarOctetString rest with
    | none => none
    | some (message, _) =>
      if validUtf8 message then some (.connectionClose (ErrorCode.ofByte c) message)
      else none

/-- `ConnectionNewAddressFrame::read_contents`: a var octet string that
must pass `Address::try_from`. -/
def connectionNewAddressReadContents (contents : List Nat) : Option Frame :=
  match readVarOctetString contents with
  | none => none
  | some (sourceAccount, _) =>
    if isValidAddress sourceAccount then some (.connectionNewAddress sourceAccount)
    else none

/-- `ConnectionAssetDetailsFrame::read_contents`: UTF-8 asset code as a
var octet string, then the scale byte. -/
def connectionAssetDetailsReadContents (contents : List Nat) : Option Frame :=
  match readVarOctetString contents with
  | none => none
  | some (sourceAssetCode, rest) =>
    if validUtf8 sourceAssetCode then
      match rest with
      | [] => none
      | scale :: _ => some (.connectionAssetDetails sourceAssetCode scale)
    else none

/-- `ConnectionMaxDataFrame::read_contents`: one var uint. -/
def connectionMaxDataReadContents (contents : List Nat) : Option Frame :=
  match readVarUint contents with
  | none => none
  | some (maxOffset, _) => some (.connectionMaxData maxOffset)

/-- `ConnectionDataBlockedFrame::read_contents`: one var uint. -/
def connectionDataBlockedReadContents (contents : List Nat) : Option Frame :=
  match readVarUint contents with
  | none => none
  | some (maxOffset, _) => some (.connectionDataBlocked maxOffset)

/-- `ConnectionMaxStreamIdFrame::read_contents`: one var uint. -/
def connectionMaxStreamIdReadContents (contents : List Nat) : Option Frame :=
  match readVarUint contents with
  | none => none
  | some (maxStreamId, _) => some (.connectionMaxStreamId maxStreamId)

/-- `ConnectionStreamIdBlockedFrame::read_contents`: one var uint. -/
def connectionStreamIdBlockedReadContents (contents : List Nat) : Option Frame :=
  match readVarUint contents with
  | none => none
  | some (maxStreamId, _) => some (.connectionStreamIdBlocked maxStreamId)

/-- `StreamCloseFrame::read_contents`: stream id, error-code byte,
UTF-8 message. -/
def streamCloseReadContents (contents : List Nat) : Option Frame :=
  match readVarUint contents with
  | none => none
  | some (streamId, rest) =>
    match rest with
    | [] => none
    | c :: rest2 =>
      match readVarOctetString rest2 with
      | none => none
      | some (message, _) =>
        if validUtf8 message then
          some (.streamClose streamId (ErrorCode.ofByte c) message)
        else none

/-- `StreamMoneyFrame::read_contents`: stream id and shares. -/
def streamMoneyReadContents (contents : List Nat) : Option Frame :=
  match readVarUint contents with
  | none => none
  | some (streamId, rest) =>
    match readVarUint rest with
    | none => none
    | some (shares, _) => some (.streamMoney streamId shares)

/-- `saturating_read_var_uint` from `packet.rs`: peek the var octet
string; if its contents exceed eight bytes, skip it and return
`u64::MAX`, otherwise fall back to `read_var_uint`. -/
def saturatingReadVarUint (buf : List Nat) : Option (Nat × List Nat) :=
  match readVarOctetString buf with
  | none => none
  | some (c, rest) => if 8 < c.length then some (u64Max, rest) else readVarUint buf

/-- `StreamMaxMoneyFrame::read_contents`: stream id, saturating
`receive_max`, `total_received`. -/
def streamMaxMoneyReadContents (contents : List Nat) : Option Frame :=
  match readVarUint contents with
  | none => none
  | some (streamId, rest) =>
    match saturatingReadVarUint rest with
    | none => none
    | some (receiveMax, rest2) =>
      match readVarUint rest2 with
      | none => none
      | some (totalReceived, _) =>
        some (.streamMaxMoney streamId receiveMax totalReceived)

/-- `StreamMoneyBlockedFrame::read_contents`: stream id, saturating
`send_max`, `total_sent`. -/
def streamMoneyBlockedReadContents (contents : List Nat) : Option Frame :=
  match readVarUint contents with
  | none => none
  | some (streamId, rest) =>
    match saturatingReadVarUint rest with
    | none => none
    | some (sendMax, rest2) =>
      match readVarUint rest2 with
      | none => none
      | some (totalSent, _) => some (.streamMoneyBlocked streamId sendMax totalSent)

/-- `StreamDataFrame::read_contents`: stream id, offset, data. -/
def streamDataReadContents (contents : List Nat) : Option Frame :=
  match readVarUint contents with
  | none => none
  | some (streamId, rest) =>
    match readVarUint rest with
    | none => none
    | some (offset, rest2) =>
      match readVarOctetString rest2 with
      | none => none
      | some (data, _) => some (.streamData streamId offset data)

/-- `StreamMaxDataFrame::read_contents`: stream id and max offset. -/
def streamMaxDataReadContents (contents : List Nat) : Option Frame :=
  match readVarUint contents with
  | none => none
  | some (streamId, rest) =>
    match readVarUint rest with
    | none => none
    | some (maxOffset, _) => some (.streamMaxData streamId maxOffset)

/-- `StreamDataBlockedFrame::read_contents`: stream id and max offset. -/
def streamDataBlockedReadContents (contents : List Nat) : Option Frame :=
  match readVarUint contents with
  | none => none
  | some (streamId, rest) =>
    match readVarUint rest with
    | none => none
    | some (maxOffset, _) => some (.streamDataBlocked streamId maxOffset)

/-- Dispatch on the frame type byte, as in
`FrameIterator::try_read_next_frame` (`FrameType::from(u8)` followed by
the per-variant `read_contents`); unknown type bytes yield
`Frame::Unknown` without failing. -/
def parseFrameBody (t : Nat) (contents : List Nat) : Option Frame :=
  if t = 1 then connectionCloseReadContents contents
  else if t = 2 then connectionNewAddressReadContents contents
  else if t = 3 then connectionMaxDataReadContents contents
  else if t = 4 then connectionDataBlockedReadContents contents
  else if t = 5 then connectionMaxStreamIdReadContents contents
  else if t = 6 then connectionStreamIdBlockedReadContents contents
  else if t = 7 then connectionAssetDetailsReadContents contents
  else if t = 16 then streamCloseReadContents contents
  else if t = 17 then streamMoneyReadContents contents
  else if t = 18 then streamMaxMoneyReadContents contents
  else if t = 19 then streamMoneyBlockedReadContents contents
  else if t = 20 then streamDataReadContents contents
  else if t = 21 then streamMaxDataReadContents contents
  else if t = 22 then streamDataBlockedReadContents contents
  else some .unknown

/-- `FrameIterator::try_read_next_frame` from `packet.rs`: read the
type byte, read the contents var octet string, then dispatch.  Returns
the frame (or `none` when the source would return `Err`) together with
the remaining buffer, including what a failed read leaves behind. -/
def tryReadNextFrame : List Nat → Option Frame × List Nat
  | [] => (none, [])
  | t :: rest =>
    match readVarOctetStringConsumed rest with
    | (none, r) => (none, r)
    | (some contents, r) => (parseFrameBody t contents, r)

/-- Fuel-driven helper for `frameList` (structural recursion so the
kernel can evaluate it; the buffer shrinks by at least one byte per
step, so any fuel at least the buffer length gives the fixpoint). -/
def frameListFuel : Nat → List Nat → List Frame
  | 0, _ => []
  | _ + 1, [] => []
  | fuel + 1, t :: rest =>
    match tryReadNextFrame (t :: rest) with
    | (some f, r) => f :: frameListFuel fuel r
    | (none, r) => frameListFuel fuel r

/-- The sequence of frames the `FrameIterator` yields over a buffer
(`Iterator::next` in `packet.rs`): on a parse error the iterator logs
and keeps scanning from where the failed read left the buffer, so
errors produce no element. -/
def frameList (buf : List Nat) : List Frame :=
  frameListFuel buf.length buf

/-- A parse error from decoding; the source's `ParseError` has more
variants (I/O, UTF-8, ...), all of which are collapsed into
`otherErr` — the claims only distinguish `InvalidPacket`. -/
inductive ParseErr where
  | invalidPacket (msg : String)
  | otherErr

deriving DecidableEq, Repr

deriving instance DecidableEq for Except

/-- The parsed view of a `StreamPacket` (the source keeps the raw
buffer plus a frame offset; `sequence()`, `ilp_packet_type()`,
`prepare_amount()` and the `frames()` iterator are its observers). -/
structure ParsedPacket where
  sequence : Nat
  ilpPacketType : IlpPacketType
  prepareAmount : Nat
  frames : List Frame

deriving DecidableEq, Repr

/-- The header reads of `StreamPacket::from_bytes_unencrypted`:
version byte (must be 1), ILP packet type, sequence, prepare amount and
`num_frames`, returning the remaining buffer at `frames_offset`. -/
def parseStreamHeader (buf : List Nat) :
    Except ParseErr (IlpPacketType × Nat × Nat × Nat × List Nat) :=
  match buf with
  | [] => .error .otherErr
  | v :: r1 =>
    if v = 1 then
      match r1 with
      | [] => .error .otherErr
      | tb :: r2 =>
        match IlpPacketType.ofByte tb with
        | none => .error (.invalidPacket "Unknown packet type")
        | some t =>
          match readVarUint r2 with
          | none => .error .otherErr
          | some (sequence, r3) =>
            match readVarUint r3 with
            | none => .error .otherErr
            | some (prepareAmount, r4) =>
              match readVarUint r4 with
              | none => .error .otherErr
              | some (numFrames, r5) => .ok (t, sequence, prepareAmount, numFrames, r5)
    else .error (.invalidPacket "Unsupported STREAM version")

/-- `StreamPacket::from_bytes_unencrypted` from `packet.rs`: parse the
header, then accept only if `num_frames` equals the number of frames
the `FrameIterator` yields over the rest of the buffer. -/
def fromBytesUnencrypted (buf : List Nat) : Except ParseErr ParsedPacket :=
  match parseStreamHeader buf with
  | .error e => .error e
  | .ok (t, sequence, prepareAmount, numFrames, rest) =>
    if (frameList rest).length = numFrames then
      .ok ⟨sequence, t, prepareAmount, frameList rest⟩
    else .error (.invalidPacket "Incorrect number of frames or unable to parse all frames")

/-- `StreamPacketBuilder::build` from `packet.rs` (the serialized
`buffer_unencrypted`): version, type byte, sequence, prepare amount,
`num_frames` equal to the full frame-list length (`self.frames.len()`),
then the frame section — which skips `Frame::Unknown`. -/
def buildBytes (sequence : Nat) (ilpPacketType : IlpPacketType) (prepareAmount : Nat)
    (frames : List Frame) : List Nat :=
  1 :: ilpPacketType.toByte
    :: (putVarUint sequence ++ putVarUint prepareAmount
        ++ putVarUint frames.length ++ encodeFrames frames)

/-- `StreamPacket::from_encrypted`, with the AES-256-GCM `decrypt` of
the missing `crypto.rs` abstracted as the function argument `dec`
(`none` models a decryption failure). -/
def fromEncrypted (dec : List Nat → List Nat → Option (List Nat))
    (sharedSecret data : List Nat) : Except ParseErr ParsedPacket :=
  match dec sharedSecret data with
  | none => .error (.invalidPacket "Unable to decrypt packet")
  | some plaintext => fromBytesUnencrypted plaintext

/-- The Rust type invariants of a frame accepted by
`StreamPacketBuilder`: `u64` fields below `2 ^ 64`, `u8` fields below
`256`, `str` fields valid UTF-8, the address valid, byte slices made of
bytes. -/
def frameValid : Frame → Bool
  | .connectionClose _ message => validUtf8 message && message.all (· < 256)
  | .connectionNewAddress sourceAccount => isValidAddress sourceAccount
  | .connectionAssetDetails sourceAssetCode sourceAssetScale =>
    validUtf8 sourceAssetCode && sourceAssetCode.all (· < 256)
      && decide (sourceAssetScale < 256)
  | .connectionMaxData maxOffset => decide (maxOffset < 2 ^ 64)
  | .connectionDataBlocked maxOffset => decide (maxOffset < 2 ^ 64)
  | .connectionMaxStreamId maxStreamId => decide (maxStreamId < 2 ^ 64)
  | .connectionStreamIdBlocked maxStreamId => decide (maxStreamId < 2 ^ 64)
  | .streamClose streamId _ message =>
    decide (streamId < 2 ^ 64) && validUtf8 message && message.all (· < 256)
  | .streamMoney streamId shares =>
    decide (streamId < 2 ^ 64) && decide (shares < 2 ^ 64)
  | .streamMaxMoney streamId receiveMax totalReceived =>
    decide (streamId < 2 ^ 64) && decide (receiveMax < 2 ^ 64)
      && decide (totalReceived < 2 ^ 64)
  | .streamMoneyBlocked streamId sendMax totalSent =>
    decide (streamId < 2 ^ 64) && decide (sendMax < 2 ^ 64) && decide (totalSent < 2 ^ 64)
  | .streamData streamId offset data =>
    decide (streamId < 2 ^ 64) && decide (offset < 2 ^ 64) && data.all (· < 256)
  | .streamMaxData streamId maxOffset =>
    decide (streamId < 2 ^ 64) && decide (maxOffset < 2 ^ 64)
  | .streamDataBlocked streamId maxOffset =>
    decide (streamId < 2 ^ 64) && decide (maxOffset < 2 ^ 64)
  | .unknown => true

/-- `enum CongestionState` from `src/src/stream/congestion.rs`. -/
inductive CongestionState where
  | slowStart
  | avoidCongestion

deriving DecidableEq, Repr

/-- `CongestionController` from `src/src/stream/congestion.rs`.  The
`id -> amount` `HashMap` is an association list with unique keys;
`decrease_factor` is an `f64` in the source, modelled as a natural
(every construction in the repository uses `2.0`, and no theorem below
depends on the division in the `T04` branch). -/
structure CongestionController where
  state : CongestionState
  increaseAmount : Nat
  decreaseFactor : Nat
  maxPacketAmount : Option Nat
  amountInFlight : Nat
  maxInFlight : Nat
  packets : List (Nat × Nat)

deriving DecidableEq, Repr

/-- `HashMap` lookup on the association list. -/
def packetsLookup (l : List (Nat × Nat)) (id : Nat) : Option Nat :=
  (l.find? (fun p => p.1 == id)).map (fun p => p.2)

/-- `HashMap::remove`'s effect on the association list. -/
def packetsErase (l : List (Nat × Nat)) (id : Nat) : List (Nat × Nat) :=
  l.filter (fun p => !(p.1 == id))

/-- `HashMap::insert` (overwriting) on the association list. -/
def packetsInsert (l : List (Nat × Nat)) (id amount : Nat) : List (Nat × Nat) :=
  (id, amount) :: packetsErase l id

/-- `CongestionController::new`. -/
def CongestionController.new (startAmount increaseAmount decreaseFactor : Nat) :
    CongestionController :=
  { state := .slowStart
    increaseAmount := increaseAmount
    decreaseFactor := decreaseFactor
    maxPacketAmount := none
    amountInFlight := 0
    maxInFlight := startAmount
    packets := [] }

/-- `CongestionController::set_max_packet_amount`. -/
def CongestionController.setMaxPacketAmount (c : CongestionController)
    (maxPacketAmount : Nat) : CongestionController :=
  { c with maxPacketAmount := some maxPacketAmount }

/-- `CongestionController::get_max_amount`.  The source computes
`self.max_in_flight - self.amount_in_flight` on `u64`; when
`amount_in_flight` exceeds `max_in_flight` that subtraction underflows
(a panic in a debug build, wrap-around in release), modelled as
`none`. -/
def CongestionController.getMaxAmount? (c : CongestionController) : Option Nat :=
  if c.maxInFlight < c.amountInFlight then none
  else
    let amountLeftInWindow := c.maxInFlight - c.amountInFlight
    match c.maxPacketAmount with
    | some maxPacketAmount => some (min amountLeftInWindow maxPacketAmount)
    | none => some amountLeftInWindow

/-- `CongestionController::prepare`: for a positive amount, add it to
the in-flight total and record the `id -> amount` mapping. -/
def CongestionController.prepare (c : CongestionController) (id amount : Nat) :
    CongestionController :=
  if 0 < amount then
    { c with
      amountInFlight := c.amountInFlight + amount
      packets := packetsInsert c.packets id amount }
  else c

/-- `CongestionController::fulfill`: remove the mapping, subtract from
the in-flight total, then grow `max_in_flight` — doubling in
`SlowStart`, adding `increase_amount` otherwise, both saturated at
`u64::MAX` exactly as the source's two comparisons do. -/
def CongestionController.fulfill (c : CongestionController) (id : Nat) :
    CongestionController :=
  match packetsLookup c.packets id with
  | none => c
  | some amount =>
    let c1 := { c with
      packets := packetsErase c.packets id
      amountInFlight := c.amountInFlight - amount }
    if c1.state = .slowStart then
      if c1.maxInFlight ≤ u64Max / 2 then { c1 with maxInFlight := c1.maxInFlight * 2 }
      else { c1 with maxInFlight := u64Max }
    else
      if c1.maxInFlight ≤ u64Max - c1.increaseAmount then
        { c1 with maxInFlight := c1.maxInFlight + c1.increaseAmount }
      else { c1 with maxInFlight := u64Max }

/-- `CongestionController::reject`: remove the mapping and subtract
from the in-flight total; only when the error code is the string
`"T04"` switch to `AvoidCongestion` and divide `max_in_flight` by
`decrease_factor` (an `f64` floor division in the source), floored at
`1`.  Every other code — `"F08"` included — leaves the rest of the
state untouched. -/
def CongestionController.reject (c : CongestionController) (id : Nat)
    (errorCode : String) : CongestionController :=
  match packetsLookup c.packets id with
  | none => c
  | some amount =>
    let c1 := { c with
      packets := packetsErase c.packets id
      amountInFlight := c.amountInFlight - amount }
    if errorCode = "T04" then
      { c1 with
        state := .avoidCongestion
        maxInFlight := max (c1.maxInFlight / c1.decreaseFactor) 1 }
    else c1

/-- A call against the congestion controller, for stating reachability
by arbitrary call sequences. -/
inductive CcOp where
  | prepareOp (id amount : Nat)
  | fulfillOp (id : Nat)
  | rejectOp (id : Nat) (errorCode : String)

/-- Apply a sequence of congestion-controller calls in order. -/
def applyCcOps (c : CongestionController) (ops : List CcOp) : CongestionController :=
  ops.foldl
    (fun c op =>
      match op with
      | .prepareOp id amount => c.prepare id amount
      | .fulfillOp id => c.fulfill id
      | .rejectOp id errorCode => c.reject id errorCode)
    c

/-- The `prepare(id, amount); fulfill(id)` rounds of the slow-start
claim, as controller calls. -/
def roundOps (ps : List (Nat × Nat)) : List CcOp :=
  ps.foldr (fun p acc => .prepareOp p.1 p.2 :: .fulfillOp p.1 :: acc) []

/-- Modelled from the spec (glossary, base64url no pad; the `base64`
crate used by `server.rs` is external): the URL-safe alphabet byte for
a six-bit value. -/
def b64Char (v : Nat) : Nat :=
  if v < 26 then 65 + v
  else if v < 52 then 71 + v
  else if v < 62 then v - 4
  else if v = 62 then 45
  else 95

/-- Modelled from the spec: the inverse alphabet lookup; `none` for a
byte outside the URL-safe alphabet. -/
def b64CharDecode (ch : Nat) : Option Nat :=
  if 65 ≤ ch ∧ ch ≤ 90 then some (ch - 65)
  else if 97 ≤ ch ∧ ch ≤ 122 then some (ch - 71)
  else if 48 ≤ ch ∧ ch ≤ 57 then some (ch + 4)
  else if ch = 45 then some 62
  else if ch = 95 then some 63
  else none

/-- Modelled from the spec: base64url encoding without padding —
three-byte groups to four characters, a trailing byte to two, two
trailing bytes to three. -/
def base64urlEncode : List Nat → List Nat
  | [] => []
  | [a] => [b64Char (a / 4), b64Char (a % 4 * 16)]
  | [a, b] => [b64Char (a / 4), b64Char (a % 4 * 16 + b / 16), b64Char (b % 16 * 4)]
  | a :: b :: d :: rest =>
    b64Char (a / 4) :: b64Char (a % 4 * 16 + b / 16) :: b64Char (b % 16 * 4 + d / 64)
      :: b64Char (d % 64) :: base64urlEncode rest

/-- Modelled from the spec: base64url decoding without padding — fails
on any byte outside the alphabet and on a length congruent to one
modulo four, as `base64::decode_config` does. -/
def base64urlDecode : List Nat → Option (List Nat)
  | [] => some []
  | [_] => none
  | [w, x] =>
    match b64CharDecode w, b64CharDecode x with
    | some dw, some dx => some [dw * 4 + dx / 16]
    | _, _ => none
  | [w, x, y] =>
    match b64CharDecode w, b64CharDecode x, b64CharDecode y with
    | some dw, some dx, some dy => some [dw * 4 + dx / 16, dx % 16 * 16 + dy / 4]
    | _, _, _ => none
  | w :: x :: y :: z :: rest =>
    match b64CharDecode w, b64CharDecode x, b64CharDecode y, b64CharDecode z,
        base64urlDecode rest with
    | some dw, some dx, some dy, some dz, some tail =>
      some ((dw * 4 + dx / 16) :: (dx % 16 * 16 + dy / 4) :: (dy % 4 * 64 + dz) :: tail)
    | _, _, _, _, _ => none

/-- The ASCII bytes of `"ilp_stream_secret_generator"` from
`server.rs`. -/
def streamServerSecretGenerator : List Nat :=
  [105, 108, 112, 95, 115, 116, 114, 101, 97, 109, 95, 115, 101, 99, 114, 101,
   116, 95, 103, 101, 110, 101, 114, 97, 116, 111, 114]

/-- `ConnectionGenerator::new` from `server.rs`: the stored
`secret_generator` is `hmac_sha256(server_secret,
"ilp_stream_secret_generator")`; `hmac_sha256` (in the missing
`crypto.rs`) is a function argument. -/
def connectionGeneratorNew (hmacSha256 : List Nat → List Nat → List Nat)
    (serverSecret : List Nat) : List Nat :=
  hmacSha256 serverSecret streamServerSecretGenerator

/-- `Address::segments().rev().next()`: the bytes after the last dot
separator. -/
def lastSegment (a : List Nat) : List Nat :=
  (a.reverse.takeWhile (fun b => b != 46)).reverse

/-- `Address::with_suffix`: append a dot and the suffix as a new final
segment (the `interledger-packet` `Address` is not under `src/`; spec
section 3). -/
def withSuffix (a s : List Nat) : List Nat :=
  a ++ 46 :: s

/-- `ConnectionGenerator::generate_address_and_secret` from
`server.rs`, with the random 18-byte token (`generate_token`) and
`hmac_sha256` as arguments: derive the shared secret from the token,
append the base64url token as a new segment, then extend that segment
with the base64url 14-byte auth tag over the intermediate address. -/
def generateAddressAndSecret (hmacSha256 : List Nat → List Nat → List Nat)
    (secretGenerator baseAddress randomBytes : List Nat) : List Nat × List Nat :=
  let sharedSecret := hmacSha256 secretGenerator randomBytes
  let destinationAccount := baseAddress ++ 46 :: base64urlEncode randomBytes
  let authTag := (hmacSha256 sharedSecret destinationAccount).take 14
  (destinationAccount ++ base64urlEncode authTag, sharedSecret)

/-- `ConnectionGenerator::rederive_secret` from `server.rs`:
base64url-decode the last segment, require 32 bytes, split into the
18-byte token and 14-byte auth tag, re-derive the secret, and compare
the auth tag recomputed over the address minus its last 19 bytes
(dot plus encoded tag) against the carried tag. -/
def rederiveSecret (hmacSha256 : List Nat → List Nat → List Nat)
    (secretGenerator destinationAccount : List Nat) : Option (List Nat) :=
  match base64urlDecode (lastSegment destinationAccount) with
  | none => none
  | some localPart =>
    if localPart.length = 32 then
      let randomBytes := localPart.take 18
      let authTag := localPart.drop 18
      let sharedSecret := hmacSha256 secretGenerator randomBytes
      let derivedAuthTag :=
        (hmacSha256 sharedSecret
          (destinationAccount.take (destinationAccount.length - 19))).take 14
      if derivedAuthTag = authTag then some sharedSecret else none
    else none

/-- An ILP Prepare as consumed by `receive_money` and produced by the
sender: `{amount, execution_condition, data}` (the destination and
expiry are handled by collaborators outside the modelled functions). -/
structure IlpPrepare where
  amount : Nat
  executionCondition : List Nat
  data : List Nat

deriving DecidableEq, Repr

/-- An ILP Fulfill: `{fulfillment, data}`. -/
structure IlpFulfill where
  fulfillment : List Nat
  data : List Nat

deriving DecidableEq, Repr

/-- An ILP Reject: `{code, message, triggered_by, data}`; the
three-character ILP error code (a distinct type in the missing
`interledger-packet` crate) is a string such as `"F99"`, whose first
byte is its class. -/
structure IlpReject where
  code : String
  message : List Nat
  triggeredBy : List Nat
  data : List Nat

deriving DecidableEq, Repr

/-- The ASCII bytes of `"ilp_stream_fulfillment"` (spec section
4.A). -/
def fulfillmentGeneratorContext : List Nat :=
  [105, 108, 112, 95, 115, 116, 114, 101, 97, 109, 95, 102, 117, 108, 102, 105,
   108, 108, 109, 101, 110, 116]

/-- Modelled from the spec (section 4.A; `crypto.rs` of
`interledger-stream` is not under `src/`): `generate_fulfillment` —
HMAC the ILP data with the key `hmac_sha256(shared_secret,
"ilp_stream_fulfillment")`.  `hmac_sha256` itself is a function
argument. -/
def generateFulfillment (hmacSha256 : List Nat → List Nat → List Nat)
    (sharedSecret data : List Nat) : List Nat :=
  hmacSha256 (hmacSha256 sharedSecret fulfillmentGeneratorContext) data

/-- Modelled from the spec (section 4.A): `generate_condition` — the
SHA-256 hash (function argument `hashSha256`) of the fulfillment. -/
def generateCondition (hmacSha256 : List Nat → List Nat → List Nat)
    (hashSha256 : List Nat → List Nat) (sharedSecret data : List Nat) : List Nat :=
  hashSha256 (generateFulfillment hmacSha256 sharedSecret data)

/-- The ASCII bytes of `"Could not decrypt data"` from `server.rs`. -/
def couldNotDecryptData : List Nat :=
  [67, 111, 117, 108, 100, 32, 110, 111, 116, 32, 100, 101, 99, 114, 121, 112,
   116, 32, 100, 97, 116, 97]

/-- The response-frame loop of `receive_money`: for each incoming
`StreamMoney` frame, a `StreamMaxMoney{stream_id, receive_max =
u64::MAX, total_received = 0}` response frame, in order. -/
def responseFramesFor (frames : List Frame) : List Frame :=
  frames.filterMap
    (fun f =>
      match f with
      | .streamMoney streamId _ => some (.streamMaxMoney streamId u64Max 0)
      | _ => none)

/-- `receive_money` from `server.rs` (`Result` with `Fulfill` on the
`Ok` side and `Reject` on the `Err` side, as in the source).  The
crypto primitives of the missing `crypto.rs` are function arguments:
`hmacSha256`, `hashSha256`, AES-GCM `enc`, and `dec` (the inverse used
by `StreamPacket::from_encrypted`). -/
def receiveMoney (hmacSha256 : List Nat → List Nat → List Nat)
    (hashSha256 : List Nat → List Nat) (enc : List Nat → List Nat → List Nat)
    (dec : List Nat → List Nat → Option (List Nat))
    (sharedSecret clientAddress : List Nat) (prepare : IlpPrepare) :
    Except IlpReject IlpFulfill :=
  let fulfillment := generateFulfillment hmacSha256 sharedSecret prepare.data
  let condition := hashSha256 fulfillment
  match fromEncrypted dec sharedSecret prepare.data with
  | .error _ => .error ⟨"F06", couldNotDecryptData, clientAddress, []⟩
  | .ok streamPacket =>
    let responseFrames := responseFramesFor streamPacket.frames
    if condition = prepare.executionCondition
        ∧ streamPacket.prepareAmount ≤ prepare.amount then
      let responsePacket :=
        buildBytes streamPacket.sequence .fulfill prepare.amount responseFrames
      .ok ⟨fulfillment, enc sharedSecret responsePacket⟩
    else
      let responsePacket :=
        buildBytes streamPacket.sequence .reject prepare.amount responseFrames
      .error ⟨"F99", [], clientAddress, enc sharedSecret responsePacket⟩

/-- `StreamDelivery` from `client.rs` (the sender's receipt). -/
structure StreamDelivery where
  fromAddress : List Nat
  toAddress : List Nat
  sentAmount : Nat
  sentAssetScale : Nat
  sentAssetCode : List Nat
  deliveredAmount : Nat
  deliveredAssetScale : Option Nat
  deliveredAssetCode : Option (List Nat)

deriving DecidableEq, Repr

/-- The sender's error type (`error.rs` of `interledger-stream` is not
under `src/`; spec section 7).  `SendMoneyError` carries the rejecting
code and message (the source formats them into one string). -/
inductive SendError where
  | connectionError (msg : String)
  | sendMoneyError (code : String) (message : List Nat)
  | timeoutError

deriving DecidableEq, Repr

/-- Modelled from the spec (section 4.G; `congestion.rs` of the
`interledger-stream` crate — the controller the sender uses, keyed by
amount rather than id — is not under `src/`). -/
structure ClientCongestion where
  state : CongestionState
  increaseAmount : Nat
  decreaseFactor : Nat
  maxPacketAmount : Option Nat
  amountInFlight : Nat
  maxInFlight : Nat

deriving DecidableEq, Repr

/-- Modelled from the spec: the sender-side controller constructor. -/
def ClientCongestion.new (startAmount increaseAmount decreaseFactor : Nat) :
    ClientCongestion :=
  { state := .slowStart
    increaseAmount := increaseAmount
    decreaseFactor := decreaseFactor
    maxPacketAmount := none
    amountInFlight := 0
    maxInFlight := startAmount }

/-- Modelled from the spec: `min(max_in_flight - amount_in_flight,
max_packet_amount or infinity)` (truncated subtraction; the underflow
question for the controller that is under `src/` is settled
separately). -/
def ClientCongestion.getMaxAmount (c : ClientCongestion) : Nat :=
  let amountLeftInWindow := c.maxInFlight - c.amountInFlight
  match c.maxPacketAmount with
  | some maxPacketAmount => min amountLeftInWindow maxPacketAmount
  | none => amountLeftInWindow

/-- Modelled from the spec: record an outgoing amount in flight. -/
def ClientCongestion.prepare (c : ClientCongestion) (amount : Nat) : ClientCongestion :=
  { c with amountInFlight := c.amountInFlight + amount }

/-- Modelled from the spec: on fulfill, shrink the in-flight total and
grow the window — doubling in slow start, additive otherwise, saturated
at `u64::MAX`. -/
def ClientCongestion.fulfill (c : ClientCongestion) (amount : Nat) : ClientCongestion :=
  let c1 := { c with amountInFlight := c.amountInFlight - amount }
  if c1.state = .slowStart then
    { c1 with maxInFlight := min (c1.maxInFlight * 2) u64Max }
  else
    { c1 with maxInFlight := min (c1.maxInFlight + c1.increaseAmount) u64Max }

/-- Modelled from the spec: on reject, shrink the in-flight total; on
`T04` switch to congestion avoidance and divide the window; on `F08`
lower `max_packet_amount` (the spec leaves the data-derived bound
open — modelled as the conservative halving it prescribes as the
fallback); every other code only shrinks the in-flight total. -/
def ClientCongestion.reject (c : ClientCongestion) (amount : Nat) (code : String) :
    ClientCongestion :=
  let c1 := { c with amountInFlight := c.amountInFlight - amount }
  if code = "T04" then
    { c1 with
      state := .avoidCongestion
      maxInFlight := max (c1.maxInFlight / c1.decreaseFactor) 1 }
  else if code = "F08" then
    { c1 with
      maxPacketAmount := some (max ((c1.maxPacketAmount.getD c1.maxInFlight) / 2) 1) }
  else c1

/-- `enum SendMoneyFutureState` from `client.rs`. -/
inductive SendMoneyFutureState where
  | sendMoney
  | closing
  | closed

deriving DecidableEq, Repr

/-- `SendMoneyFuture` from `client.rs` — the sender's working state.
`sentPrepares` is an observational transcript, recording the
`(sequence, amount)` of every Prepare handed to the `next`
collaborator; it corresponds to no source field. -/
structure SenderState where
  state : SendMoneyFutureState
  sourceAccount : List Nat
  destinationAccount : List Nat
  sharedSecret : List Nat
  sourceAmount : Nat
  congestion : ClientCongestion
  receipt : StreamDelivery
  shouldSendSourceAccount : Bool
  sequence : Nat
  rejectedPackets : Nat
  error : Option SendError
  sentPrepares : List (Nat × Nat)

deriving DecidableEq, Repr

/-- The `ConnectionAssetDetails` scan shared by `handle_fulfill` and
`handle_reject` in `client.rs`: each such frame sets both delivered
asset fields. -/
def assetDetailsScan (frames : List Frame) (receipt : StreamDelivery) : StreamDelivery :=
  frames.foldl
    (fun r f =>
      match f with
      | .connectionAssetDetails code scale =>
        { r with deliveredAssetScale := some scale, deliveredAssetCode := some code }
      | _ => r)
    receipt

/-- `SendMoneyFuture::handle_fulfill` from `client.rs` (the
`last_fulfill_time` update is real time and not modelled): grow the
congestion window, clear `should_send_source_account`, and — when the
fulfill data decrypts to a STREAM packet of type Fulfill — populate the
delivered asset fields if missing and add the packet's
`prepare_amount` to `delivered_amount`. -/
def handleFulfill (dec : List Nat → List Nat → Option (List Nat)) (st : SenderState)
    (amount : Nat) (fulfill : IlpFulfill) : SenderState :=
  let st := { st with
    congestion := st.congestion.fulfill amount
    shouldSendSourceAccount := false }
  match fromEncrypted dec st.sharedSecret fulfill.data with
  | .ok packet =>
    if packet.ilpPacketType = .fulfill then
      let st :=
        if st.receipt.deliveredAssetScale = none then
          { st with receipt := assetDetailsScan packet.frames st.receipt }
        else st
      { st with receipt :=
        { st.receipt with
          deliveredAmount := st.receipt.deliveredAmount + packet.prepareAmount } }
    else st
  | .error _ => st

/-- The class of a three-character ILP error code is its first
character (`ErrorClass` in the missing `interledger-packet` crate):
`T` is Temporary. -/
def isTemporaryClass (code : String) : Bool :=
  match code.data with
  | c :: _ => c == 'T'
  | [] => false

/-- `SendMoneyFuture::handle_reject` from `client.rs`: restore the
amount to `source_amount`, tell the controller, count the reject, try
to populate missing delivered-asset fields from the reject data, then
classify — Temporary codes, `F08` and `F99` are absorbed, every other
code latches a `SendMoneyError`. -/
def handleReject (dec : List Nat → List Nat → Option (List Nat)) (st : SenderState)
    (amount : Nat) (reject : IlpReject) : SenderState :=
  let st := { st with
    sourceAmount := st.sourceAmount + amount
    congestion := st.congestion.reject amount reject.code
    rejectedPackets := st.rejectedPackets + 1 }
  let st :=
    if st.receipt.deliveredAssetScale = none ∨ st.receipt.deliveredAssetCode = none then
      match fromEncrypted dec st.sharedSecret reject.data with
      | .ok packet => { st with receipt := assetDetailsScan packet.frames st.receipt }
      | .error _ => st
    else st
  if isTemporaryClass reject.code then st
  else if reject.code = "F08" then st
  else if reject.code = "F99" then st
  else { st with error := some (.sendMoneyError reject.code reject.message) }

/-- `SendMoneyFuture::try_send_money` from `client.rs`: take
`min(source_amount, get_max_amount())`; if zero do nothing, else
subtract it, build the STREAM packet (`StreamMoney{1, 1}` plus
`ConnectionNewAddress` when `should_send_source_account`), encrypt,
derive the condition, record the Prepare with the controller, hand it
to the collaborator `handler`, and dispatch on the response. -/
def trySendMoney (hmacSha256 : List Nat → List Nat → List Nat)
    (hashSha256 : List Nat → List Nat) (enc : List Nat → List Nat → List Nat)
    (dec : List Nat → List Nat → Option (List Nat))
    (handler : IlpPrepare → Except IlpReject IlpFulfill) (st : SenderState) :
    SenderState :=
  let amount := min st.sourceAmount st.congestion.getMaxAmount
  if amount = 0 then st
  else
    let st := { st with sourceAmount := st.sourceAmount - amount }
    let sequence := st.sequence
    let st := { st with sequence := st.sequence + 1 }
    let frames :=
      if st.shouldSendSourceAccount then
        [Frame.streamMoney 1 1, Frame.connectionNewAddress st.sourceAccount]
      else [Frame.streamMoney 1 1]
    let data := enc st.sharedSecret (buildBytes sequence .prepare 0 frames)
    let executionCondition := generateCondition hmacSha256 hashSha256 st.sharedSecret data
    let prepare : IlpPrepare := ⟨amount, executionCondition, data⟩
    let st := { st with
      congestion := st.congestion.prepare amount
      sentPrepares := st.sentPrepares ++ [(sequence, amount)] }
    match handler prepare with
    | .ok fulfill => handleFulfill dec st amount fulfill
    | .error reject => handleReject dec st amount reject

/-- `SendMoneyFuture::try_send_connection_close` from `client.rs`: a
zero-amount Prepare carrying a `ConnectionClose{NoError, ""}` packet
under `random_condition()` (argument `randomCondition`). -/
def trySendConnectionClose (enc : List Nat → List Nat → List Nat)
    (dec : List Nat → List Nat → Option (List Nat)) (randomCondition : List Nat)
    (handler : IlpPrepare → Except IlpReject IlpFulfill) (st : SenderState) :
    SenderState :=
  let sequence := st.sequence
  let st := { st with sequence := st.sequence + 1 }
  let data :=
    enc st.sharedSecret (buildBytes sequence .prepare 0 [Frame.connectionClose .noError []])
  let prepare : IlpPrepare := ⟨0, randomCondition, data⟩
  let st := { st with sentPrepares := st.sentPrepares ++ [(sequence, 0)] }
  match handler prepare with
  | .ok fulfill => handleFulfill dec st 0 fulfill
  | .error reject => handleReject dec st 0 reject

/-- One iteration of the `send_money` main loop (`client.rs`, the
`loop` in `send_money`): return a latched error; else (the 30-second
liveness timeout is real time and not modelled — the collaborator
replies immediately in every claim below) when everything is sent,
close or finish; otherwise `try_send_money`.  `Sum.inl` continues with
the new state, `Sum.inr` returns. -/
def senderIter (hmacSha256 : List Nat → List Nat → List Nat)
    (hashSha256 : List Nat → List Nat) (enc : List Nat → List Nat → List Nat)
    (dec : List Nat → List Nat → Option (List Nat)) (randomCondition : List Nat)
    (handler : IlpPrepare → Except IlpReject IlpFulfill) (st : SenderState) :
    SenderState ⊕ (Except SendError StreamDelivery) :=
  match st.error with
  | some e => .inr (.error e)
  | none =>
    if st.sourceAmount = 0 then
      if st.state = .sendMoney then
        .inl (trySendConnectionClose enc dec randomCondition handler
          { st with state := .closing })
      else .inr (.ok st.receipt)
    else .inl (trySendMoney hmacSha256 hashSha256 enc dec handler st)

/-- Run the `send_money` loop for at most `fuel` iterations, returning
the result and the state at return (`none` when the fuel runs out). -/
def senderRun (hmacSha256 : List Nat → List Nat → List Nat)
    (hashSha256 : List Nat → List Nat) (enc : List Nat → List Nat → List Nat)
    (dec : List Nat → List Nat → Option (List Nat)) (randomCondition : List Nat)
    (handler : IlpPrepare → Except IlpReject IlpFulfill) :
    Nat → SenderState → Option (Except SendError StreamDelivery × SenderState)
  | 0, _ => none
  | fuel + 1, st =>
    match senderIter hmacSha256 hashSha256 enc dec randomCondition handler st with
    | .inr result => some (result, st)
    | .inl st2 => senderRun hmacSha256 hashSha256 enc dec randomCondition handler fuel st2

/-- The state `send_money` builds before entering its loop
(`client.rs`): controller `(source_amount, source_amount / 10, 2.0)`,
receipt with `sent_amount = source_amount`, sequence 1. -/
def initSender (sourceAccount destinationAccount sharedSecret : List Nat)
    (sentAssetScale : Nat) (sentAssetCode : List Nat) (sourceAmount : Nat) :
    SenderState :=
  { state := .sendMoney
    sourceAccount := sourceAccount
    destinationAccount := destinationAccount
    sharedSecret := sharedSecret
    sourceAmount := sourceAmount
    congestion := ClientCongestion.new sourceAmount (sourceAmount / 10) 2
    receipt :=
      { fromAddress := sourceAccount
        toAddress := destinationAccount
        sentAmount := sourceAmount
        sentAssetScale := sentAssetScale
        sentAssetCode := sentAssetCode
        deliveredAmount := 0
        deliveredAssetScale := none
        deliveredAssetCode := none }
    shouldSendSourceAccount := true
    sequence := 1
    rejectedPackets := 0
    error := none
    sentPrepares := [] }

/-- The concrete controller state of the C5 material: fresh controller
with `max_packet_amount` set to 100 and one recorded
`prepare(1, 50)`. -/
def c5ExampleController : CongestionController :=
  ((CongestionController.new 1000 1000 2).setMaxPacketAmount 100).prepare 1 50

/-- A toy `hmac_sha256` for the C2 witness: constant 32 zero bytes. -/
def c2Hmac (_k _m : List Nat) : List Nat := List.replicate 32 0

/-- Toy crypto for the C1 witness: constant HMAC and hash, identity
encryption. -/
def c1Hmac (_k _m : List Nat) : List Nat := List.replicate 32 7

/-- Toy hash for the C1 witness. -/
def c1Hash (_m : List Nat) : List Nat := [9]

/-- Identity encryption for the C1 witness. -/
def c1Enc (_k d : List Nat) : List Nat := d

/-- Identity decryption for the C1 witness. -/
def c1Dec (_k d : List Nat) : Option (List Nat) := some d

/-- The C1 witness's Prepare data: a serialized StreamPacket. -/
def c1Data : List Nat := buildBytes 5 .prepare 0 [Frame.streamMoney 1 1]

/-- The C1 witness's Prepare. -/
def c1Prepare : IlpPrepare := ⟨100, [9], c1Data⟩

/-- Toy crypto for the C8 witness. -/
def c8Hmac (_k _m : List Nat) : List Nat := List.replicate 32 3

/-- Toy hash for the C8 witness. -/
def c8Hash (_m : List Nat) : List Nat := [4]

/-- Identity encryption for the C8 witness. -/
def c8Enc (_k d : List Nat) : List Nat := d

/-- Identity decryption for the C8 witness. -/
def c8Dec (_k d : List Nat) : Option (List Nat) := some d

/-- The C8 witness's stub collaborator: rejects every Prepare with a
final `F00` code, as in the source test `stops_at_final_errors`. -/
def c8Handler : IlpPrepare → Except IlpReject IlpFulfill :=
  fun _ => .error ⟨"F00", [106], [], []⟩

theorem natToBEBytesAux_congr : ∀ n f1 f2, n ≤ f1 → n ≤ f2 →
    natToBEBytesAux f1 n = natToBEBytesAux f2 n := by
  intro n
  induction n using Nat.strong_induction_on with
  | _ n ih =>
    intro f1 f2 h1 h2
    by_cases h0 : n = 0
    · subst h0
      cases f1 <;> cases f2 <;> simp [natToBEBytesAux]
    · have hf1 : ∃ g1, f1 = g1 + 1 := ⟨f1 - 1, by omega⟩
      have hf2 : ∃ g2, f2 = g2 + 1 := ⟨f2 - 1, by omega⟩
      obtain ⟨g1, rfl⟩ := hf1
      obtain ⟨g2, rfl⟩ := hf2
      have hdiv : n / 256 < n := Nat.div_lt_self (Nat.pos_of_ne_zero h0) (by omega)
      simp only [natToBEBytesAux, if_neg h0]
      rw [ih (n / 256) hdiv g1 g2 (by omega) (by omega)]

theorem natToBEBytes_eq (n : Nat) :
    natToBEBytes n = if n = 0 then [] else natToBEBytes (n / 256) ++ [n % 256] := by
  unfold natToBEBytes
  by_cases h0 : n = 0
  · subst h0
    simp [natToBEBytesAux]
  · rw [if_neg h0]
    show natToBEBytesAux n n = natToBEBytesAux (n / 256) (n / 256) ++ [n % 256]
    obtain ⟨g, rfl⟩ : ∃ g, n = g + 1 := ⟨n - 1, by omega⟩
    simp only [natToBEBytesAux, if_neg h0]
    congr 1
    exact natToBEBytesAux_congr ((g + 1) / 256) g ((g + 1) / 256) (by omega) (by omega)

theorem beBytesToNat_append_singleton (xs : List Nat) (b : Nat) :
    beBytesToNat (xs ++ [b]) = beBytesToNat xs * 256 + b := by
  simp [beBytesToNat, List.foldl_append]

theorem beBytesToNat_natToBEBytes (n : Nat) :
    beBytesToNat (natToBEBytes n) = n := by
  induction n using Nat.strong_induction_on with
  | _ n ih =>
    by_cases h : n = 0
    · subst h
      simp [natToBEBytes, natToBEBytesAux, beBytesToNat]
    · rw [natToBEBytes_eq, if_neg h, beBytesToNat_append_singleton,
        ih (n / 256) (Nat.div_lt_self (Nat.pos_of_ne_zero h) (by omega))]
      omega

theorem beBytesToNat_varUintBytes (n : Nat) :
    beBytesToNat (varUintBytes n) = n := by
  unfold varUintBytes
  by_cases h : n = 0
  · simp [h, beBytesToNat]
  · rw [if_neg h]; exact beBytesToNat_natToBEBytes n

theorem natToBEBytes_ne_nil (n : Nat) (h : n ≠ 0) : natToBEBytes n ≠ [] := by
  rw [natToBEBytes_eq, if_neg h]
  simp

theorem natToBEBytes_length_le (k : Nat) :
    ∀ n, n < 256 ^ k → (natToBEBytes n).length ≤ k := by
  induction k with
  | zero =>
    intro n hn
    interval_cases n
    simp [natToBEBytes, natToBEBytesAux]
  | succ k ih =>
    intro n hn
    by_cases h : n = 0
    · simp [h, natToBEBytes, natToBEBytesAux]
    · rw [natToBEBytes_eq, if_neg h]
      have hdiv : n / 256 < 256 ^ k := by
        rw [Nat.div_lt_iff_lt_mul (by omega)]
        calc n < 256 ^ (k + 1) := hn
        _ = 256 ^ k * 256 := by ring
      have := ih (n / 256) hdiv
      simp only [List.length_append, List.length_cons, List.length_nil]
      omega

theorem varUintBytes_length_pos (n : Nat) : 1 ≤ (varUintBytes n).length := by
  unfold varUintBytes
  by_cases h : n = 0
  · simp [h]
  · rw [if_neg h]
    cases hb : natToBEBytes n with
    | nil => exact absurd hb (natToBEBytes_ne_nil n h)
    | cons a l => simp

theorem varUintBytes_length_le (n : Nat) (h : n < 2 ^ 64) :
    (varUintBytes n).length ≤ 8 := by
  unfold varUintBytes
  by_cases h0 : n = 0
  · simp [h0]
  · rw [if_neg h0]
    exact natToBEBytes_length_le 8 n (by norm_num at h ⊢; omega)

theorem readVarOctetStringConsumed_put (xs rest : List Nat) :
    readVarOctetStringConsumed (putVarOctetString xs ++ rest) = (some xs, rest) := by
  unfold putVarOctetString lenDeterminant
  by_cases h : xs.length < 128
  · rw [if_pos h]
    simp only [List.cons_append, List.nil_append, readVarOctetStringConsumed, if_pos h]
    rw [if_neg (by simp)]
    rw [List.take_left, List.drop_left]
  · rw [if_neg h]
    have hne : natToBEBytes xs.length ≠ [] := natToBEBytes_ne_nil _ (by omega)
    have hkpos : 0 < (natToBEBytes xs.length).length := List.length_pos.mpr hne
    simp only [List.cons_append, readVarOctetStringConsumed]
    rw [if_neg (by omega)]
    have hk : 128 + (natToBEBytes xs.length).length - 128
        = (natToBEBytes xs.length).length := by omega
    rw [hk]
    rw [if_neg (by omega)]
    rw [if_neg (by simp)]
    rw [List.append_assoc]
    rw [List.take_left, List.drop_left]
    rw [beBytesToNat_natToBEBytes]
    rw [if_neg (by simp)]
    rw [List.take_left, List.drop_left]

theorem readVarOctetString_put (xs rest : List Nat) :
    readVarOctetString (putVarOctetString xs ++ rest) = some (xs, rest) := by
  unfold readVarOctetString
  rw [readVarOctetStringConsumed_put]

theorem readVarUint_put (n : Nat) (rest : List Nat) (h : n < 2 ^ 64) :
    readVarUint (putVarUint n ++ rest) = some (n, rest) := by
  unfold readVarUint putVarUint
  rw [readVarOctetString_put]
  have h1 := varUintBytes_length_pos n
  have h2 := varUintBytes_length_le n h
  dsimp only
  rw [if_neg (by omega), beBytesToNat_varUintBytes]

theorem readVarOctetStringConsumed_length_le (buf : List Nat) :
    (readVarOctetStringConsumed buf).2.length ≤ buf.length := by
  match buf with
  | [] => simp [readVarOctetStringConsumed]
  | l :: rest =>
    simp only [readVarOctetStringConsumed]
    split_ifs <;> simp <;> omega

theorem tryReadNextFrame_length_lt (t : Nat) (rest : List Nat) :
    (tryReadNextFrame (t :: rest)).2.length < (t :: rest).length := by
  have hle := readVarOctetStringConsumed_length_le rest
  simp only [tryReadNextFrame]
  rcases hc : readVarOctetStringConsumed rest with ⟨o, r⟩
  rw [hc] at hle
  cases o <;> simp at hle ⊢ <;> omega

theorem tryReadNextFrame_snd_lt (buf : List Nat) (hne : buf ≠ []) (o : Option Frame)
    (r : List Nat) (h : tryReadNextFrame buf = (o, r)) : r.length < buf.length := by
  match buf with
  | [] => exact absurd rfl hne
  | t :: rest =>
    have hlt := tryReadNextFrame_length_lt t rest
    rw [h] at hlt
    exact hlt

theorem frameListFuel_congr_aux : ∀ n : Nat, ∀ buf : List Nat, buf.length ≤ n →
    ∀ f1 f2, buf.length ≤ f1 → buf.length ≤ f2 →
      frameListFuel f1 buf = frameListFuel f2 buf := by
  intro n
  induction n with
  | zero =>
    intro buf hn f1 f2 _ _
    have : buf = [] := List.length_eq_zero.mp (by omega)
    subst this
    cases f1 <;> cases f2 <;> rfl
  | succ n ih =>
    intro buf hn f1 f2 h1 h2
    match buf with
    | [] => cases f1 <;> cases f2 <;> rfl
    | t :: rest =>
      simp only [List.length_cons] at hn h1 h2
      obtain ⟨g1, rfl⟩ : ∃ g1, f1 = g1 + 1 := ⟨f1 - 1, by omega⟩
      obtain ⟨g2, rfl⟩ : ∃ g2, f2 = g2 + 1 := ⟨f2 - 1, by omega⟩
      simp only [frameListFuel]
      rcases htry : tryReadNextFrame (t :: rest) with ⟨o, r⟩
      have hlt : r.length < (t :: rest).length :=
        tryReadNextFrame_snd_lt _ (by simp) o r htry
      simp only [List.length_cons] at hlt
      cases o <;> simp only
        <;> rw [ih r (by omega) g1 g2 (by omega) (by omega)]

theorem frameListFuel_congr (buf : List Nat) (f1 f2 : Nat)
    (h1 : buf.length ≤ f1) (h2 : buf.length ≤ f2) :
    frameListFuel f1 buf = frameListFuel f2 buf :=
  frameListFuel_congr_aux buf.length buf (Nat.le_refl _) f1 f2 h1 h2

theorem frameList_cons_eq (t : Nat) (rest : List Nat) :
    frameList (t :: rest)
      = match tryReadNextFrame (t :: rest) with
        | (some f, r) => f :: frameList r
        | (none, r) => frameList r := by
  unfold frameList
  simp only [List.length_cons, frameListFuel]
  rcases htry : tryReadNextFrame (t :: rest) with ⟨o, r⟩
  have hlt : r.length < (t :: rest).length :=
    tryReadNextFrame_snd_lt _ (by simp) o r htry
  simp only [List.length_cons] at hlt
  cases o <;> simp only
    <;> rw [frameListFuel_congr r rest.length r.length (by omega) (by omega)]

theorem errorCode_ofByte_toByte (c : ErrorCode) : ErrorCode.ofByte c.toByte = c := by
  cases c <;> rfl

theorem ilpPacketType_ofByte_toByte (t : IlpPacketType) :
    IlpPacketType.ofByte t.toByte = some t := by
  cases t <;> rfl

theorem readVarOctetString_put_nil (xs : List Nat) :
    readVarOctetString (putVarOctetString xs) = some (xs, []) := by
  have := readVarOctetString_put xs []
  simpa using this

theorem readVarUint_put_nil (n : Nat) (h : n < 2 ^ 64) :
    readVarUint (putVarUint n) = some (n, []) := by
  have := readVarUint_put n [] h
  simpa using this

theorem saturatingReadVarUint_put (n : Nat) (rest : List Nat) (h : n < 2 ^ 64) :
    saturatingReadVarUint (putVarUint n ++ rest) = some (n, rest) := by
  unfold saturatingReadVarUint putVarUint
  rw [readVarOctetString_put]
  have h2 := varUintBytes_length_le n h
  dsimp only
  rw [if_neg (by omega)]
  exact readVarUint_put n rest h

theorem parseFrameBody_putContents (f : Frame) (hv : frameValid f = true)
    (hu : f ≠ .unknown) : parseFrameBody f.typeByte f.putContents = some f := by
  cases f with
  | connectionClose code message =>
    simp only [frameValid, Bool.and_eq_true] at hv
    simp [parseFrameBody, Frame.typeByte, Frame.putContents, connectionCloseReadContents,
      readVarOctetString_put_nil, hv.1, errorCode_ofByte_toByte]
  | connectionNewAddress sourceAccount =>
    simp only [frameValid] at hv
    simp [parseFrameBody, Frame.typeByte, Frame.putContents,
      connectionNewAddressReadContents, readVarOctetString_put_nil, hv]
  | connectionAssetDetails sourceAssetCode sourceAssetScale =>
    simp only [frameValid, Bool.and_eq_true] at hv
    simp [parseFrameBody, Frame.typeByte, Frame.putContents,
      connectionAssetDetailsReadContents, readVarOctetString_put, hv.1.1]
  | connectionMaxData maxOffset =>
    simp only [frameValid, decide_eq_true_eq] at hv
    simp [parseFrameBody, Frame.typeByte, Frame.putContents,
      connectionMaxDataReadContents, readVarUint_put_nil _ hv]
  | connectionDataBlocked maxOffset =>
    simp only [frameValid, decide_eq_true_eq] at hv
    simp [parseFrameBody, Frame.typeByte, Frame.putContents,
      connectionDataBlockedReadContents, readVarUint_put_nil _ hv]
  | connectionMaxStreamId maxStreamId =>
    simp only [frameValid, decide_eq_true_eq] at hv
    simp [parseFrameBody, Frame.typeByte, Frame.putContents,
      connectionMaxStreamIdReadContents, readVarUint_put_nil _ hv]
  | connectionStreamIdBlocked maxStreamId =>
    simp only [frameValid, decide_eq_true_eq] at hv
    simp [parseFrameBody, Frame.typeByte, Frame.putContents,
      connectionStreamIdBlockedReadContents, readVarUint_put_nil _ hv]
  | streamClose streamId code message =>
    simp only [frameValid, Bool.and_eq_true, decide_eq_true_eq] at hv
    simp [parseFrameBody, Frame.typeByte, Frame.putContents, streamCloseReadContents,
      readVarUint_put _ _ hv.1.1, readVarOctetString_put_nil, hv.1.2,
      errorCode_ofByte_toByte]
  | streamMoney streamId shares =>
    simp only [frameValid, Bool.and_eq_true, decide_eq_true_eq] at hv
    simp [parseFrameBody, Frame.typeByte, Frame.putContents, streamMoneyReadContents,
      readVarUint_put _ _ hv.1, readVarUint_put_nil _ hv.2]
  | streamMaxMoney streamId receiveMax totalReceived =>
    simp only [frameValid, Bool.and_eq_true, decide_eq_true_eq] at hv
    rw [Frame.putContents, List.append_assoc]
    simp [parseFrameBody, Frame.typeByte, streamMaxMoneyReadContents,
      readVarUint_put _ _ hv.1.1, saturatingReadVarUint_put _ _ hv.1.2,
      readVarUint_put_nil _ hv.2]
  | streamMoneyBlocked streamId sendMax totalSent =>
    simp only [frameValid, Bool.and_eq_true, decide_eq_true_eq] at hv
    rw [Frame.putContents, List.append_assoc]
    simp [parseFrameBody, Frame.typeByte, streamMoneyBlockedReadContents,
      readVarUint_put _ _ hv.1.1, saturatingReadVarUint_put _ _ hv.1.2,
      readVarUint_put_nil _ hv.2]
  | streamData streamId offset data =>
    simp only [frameValid, Bool.and_eq_true, decide_eq_true_eq] at hv
    rw [Frame.putContents, List.append_assoc]
    simp [parseFrameBody, Frame.typeByte, streamDataReadContents,
      readVarUint_put _ _ hv.1.1, readVarUint_put _ _ hv.1.2,
      readVarOctetString_put_nil]
  | streamMaxData streamId maxOffset =>
    simp only [frameValid, Bool.and_eq_true, decide_eq_true_eq] at hv
    simp [parseFrameBody, Frame.typeByte, Frame.putContents, streamMaxDataReadContents,
      readVarUint_put _ _ hv.1, readVarUint_put_nil _ hv.2]
  | streamDataBlocked streamId maxOffset =>
    simp only [frameValid, Bool.and_eq_true, decide_eq_true_eq] at hv
    simp [parseFrameBody, Frame.typeByte, Frame.putContents,
      streamDataBlockedReadContents, readVarUint_put _ _ hv.1, readVarUint_put_nil _ hv.2]
  | unknown => exact absurd rfl hu

theorem encodeFrame_eq (f : Frame) (hu : f ≠ .unknown) :
    encodeFrame f = f.typeByte :: putVarOctetString f.putContents := by
  cases f <;> first | rfl | exact absurd rfl hu

theorem frameList_encodeFrame_cons (f : Frame) (tail : List Nat)
    (hv : frameValid f = true) (hu : f ≠ .unknown) :
    frameList (encodeFrame f ++ tail) = f :: frameList tail := by
  rw [encodeFrame_eq f hu, List.cons_append]
  have htry : tryReadNextFrame (f.typeByte :: (putVarOctetString f.putContents ++ tail))
      = (some f, tail) := by
    simp only [tryReadNextFrame, readVarOctetStringConsumed_put,
      parseFrameBody_putContents f hv hu]
  rw [frameList_cons_eq, htry]

theorem frameList_encodeFrames (frames : List Frame)
    (hv : ∀ f ∈ frames, frameValid f = true) :
    frameList (encodeFrames frames)
      = frames.filter (fun f => !(f == Frame.unknown)) := by
  induction frames with
  | nil => simp [encodeFrames, frameList, frameListFuel]
  | cons f rest ih =>
    by_cases hu : f = Frame.unknown
    · subst hu
      have : encodeFrames (Frame.unknown :: rest) = encodeFrames rest := by
        simp [encodeFrames, encodeFrame]
      rw [this, ih (fun g hg => hv g (List.mem_cons_of_mem _ hg))]
      simp
    · have : encodeFrames (f :: rest) = encodeFrame f ++ encodeFrames rest := by
        simp [encodeFrames]
      rw [this, frameList_encodeFrame_cons f _ (hv f (List.mem_cons_self f rest)) hu,
        ih (fun g hg => hv g (List.mem_cons_of_mem _ hg))]
      have hne : (f == Frame.unknown) = false := by
        simp [hu]
      simp [List.filter_cons, hne]

theorem frameList_encodeFrames_no_unknown (frames : List Frame)
    (hv : ∀ f ∈ frames, frameValid f = true) (hu : Frame.unknown ∉ frames) :
    frameList (encodeFrames frames) = frames := by
  rw [frameList_encodeFrames frames hv]
  apply List.filter_eq_self.mpr
  intro f hf
  have : f ≠ Frame.unknown := fun h => hu (h ▸ hf)
  simp [this]

theorem fromBytesUnencrypted_buildBytes (sequence prepareAmount : Nat)
    (t : IlpPacketType) (frames : List Frame)
    (hs : sequence < 2 ^ 64) (hp : prepareAmount < 2 ^ 64) (hn : frames.length < 2 ^ 64)
    (hv : ∀ f ∈ frames, frameValid f = true) (hu : Frame.unknown ∉ frames) :
    fromBytesUnencrypted (buildBytes sequence t prepareAmount frames)
      = .ok ⟨sequence, t, prepareAmount, frames⟩ := by
  have hhdr : parseStreamHeader (buildBytes sequence t prepareAmount frames)
      = .ok (t, sequence, prepareAmount, frames.length, encodeFrames frames) := by
    simp only [buildBytes, parseStreamHeader, List.append_assoc,
      ilpPacketType_ofByte_toByte, readVarUint_put _ _ hs, readVarUint_put _ _ hp,
      readVarUint_put _ _ hn, if_true]
  simp only [fromBytesUnencrypted, hhdr,
    frameList_encodeFrames_no_unknown frames hv hu, if_pos rfl, if_true]

theorem fromBytesUnencrypted_mismatch (buf : List Nat) (t : IlpPacketType)
    (sequence prepareAmount numFrames : Nat) (rest : List Nat)
    (hh : parseStreamHeader buf = .ok (t, sequence, prepareAmount, numFrames, rest))
    (hc : (frameList rest).length ≠ numFrames) :
    fromBytesUnencrypted buf
      = .error (.invalidPacket
          "Incorrect number of frames or unable to parse all frames") := by
  simp only [fromBytesUnencrypted, hh, if_neg hc]

theorem fulfill_prepare_slowStart (c : CongestionController) (id amount : Nat)
    (ha : 0 < amount) (hs : c.state = .slowStart) :
    ((c.prepare id amount).fulfill id).maxInFlight = min (2 * c.maxInFlight) u64Max
      ∧ ((c.prepare id amount).fulfill id).state = .slowStart := by
  have hlook : packetsLookup (packetsInsert c.packets id amount) id = some amount := by
    simp [packetsLookup, packetsInsert]
  unfold CongestionController.prepare CongestionController.fulfill
  rw [if_pos ha]
  dsimp only
  rw [hlook]
  dsimp only
  rw [if_pos hs]
  by_cases hm : c.maxInFlight ≤ u64Max / 2
  · rw [if_pos hm]
    refine ⟨?_, hs⟩
    dsimp only
    unfold u64Max at hm ⊢
    omega
  · rw [if_neg hm]
    refine ⟨?_, hs⟩
    dsimp only
    unfold u64Max at hm ⊢
    omega

theorem applyCcOps_roundOps_maxInFlight (ps : List (Nat × Nat)) :
    ∀ c : CongestionController, c.state = .slowStart → c.maxInFlight ≤ u64Max →
      (∀ p ∈ ps, 0 < p.2) →
      (applyCcOps c (roundOps ps)).maxInFlight
          = min (c.maxInFlight * 2 ^ ps.length) u64Max
        ∧ (applyCcOps c (roundOps ps)).state = .slowStart := by
  induction ps with
  | nil =>
    intro c hs hb _
    constructor
    · simp only [applyCcOps, roundOps, List.foldr_nil, List.foldl_nil,
        List.length_nil, pow_zero, Nat.mul_one]
      omega
    · simpa [applyCcOps, roundOps] using hs
  | cons p rest ih =>
    intro c hs hb hpos
    have hstep := fulfill_prepare_slowStart c p.1 p.2 (hpos p (List.mem_cons_self p rest)) hs
    have hops : roundOps (p :: rest)
        = .prepareOp p.1 p.2 :: .fulfillOp p.1 :: roundOps rest := rfl
    have happ : applyCcOps c (roundOps (p :: rest))
        = applyCcOps ((c.prepare p.1 p.2).fulfill p.1) (roundOps rest) := by
      rw [hops]
      rfl
    rw [happ]
    have hb2 : ((c.prepare p.1 p.2).fulfill p.1).maxInFlight ≤ u64Max := by
      rw [hstep.1]
      exact Nat.min_le_right _ _
    have hrest := ih ((c.prepare p.1 p.2).fulfill p.1) hstep.2 hb2
      (fun q hq => hpos q (List.mem_cons_of_mem _ hq))
    rw [hrest.1, hstep.1]
    refine ⟨?_, hrest.2⟩
    rcases Nat.le_total (2 * c.maxInFlight) u64Max with h | h
    · rw [Nat.min_eq_left h]
      have : c.maxInFlight * 2 ^ (p :: rest).length
          = 2 * c.maxInFlight * 2 ^ rest.length := by
        simp [List.length_cons, Nat.pow_succ]
        ring
      rw [this]
    · rw [Nat.min_eq_right h]
      have h1 : min (u64Max * 2 ^ rest.length) u64Max = u64Max := by
        have : u64Max ≤ u64Max * 2 ^ rest.length :=
          Nat.le_mul_of_pos_right _ (Nat.pos_pow_of_pos _ (by omega))
        omega
      have h2 : min (c.maxInFlight * 2 ^ (p :: rest).length) u64Max = u64Max := by
        have hx : u64Max ≤ 2 * c.maxInFlight := h
        have : 2 * c.maxInFlight ≤ c.maxInFlight * 2 ^ (p :: rest).length := by
          have : (2 : Nat) * 2 ^ rest.length = 2 ^ (p :: rest).length := by
            simp [List.length_cons, Nat.pow_succ]
            ring
          calc 2 * c.maxInFlight = c.maxInFlight * 2 := by ring
          _ ≤ c.maxInFlight * (2 * 2 ^ rest.length) := by
            apply Nat.mul_le_mul_left
            have : 0 < 2 ^ rest.length := Nat.pos_pow_of_pos _ (by omega)
            omega
          _ = c.maxInFlight * 2 ^ (p :: rest).length := by rw [this]
        omega
      rw [h1, h2]

theorem b64CharDecode_b64Char (v : Nat) (h : v < 64) :
    b64CharDecode (b64Char v) = some v := by
  unfold b64Char b64CharDecode
  split_ifs <;> (try simp only [Option.some.injEq]) <;> omega

theorem b64Char_ne_dot (v : Nat) : b64Char v ≠ 46 := by
  unfold b64Char
  split_ifs <;> omega

theorem dot_not_mem_base64urlEncode (xs : List Nat) : 46 ∉ base64urlEncode xs := by
  induction xs using base64urlEncode.induct with
  | case1 => simp [base64urlEncode]
  | case2 a =>
    simp only [base64urlEncode, List.mem_cons, List.not_mem_nil, or_false]
    exact fun h => h.elim (fun h1 => b64Char_ne_dot _ h1.symm)
      (fun h1 => b64Char_ne_dot _ h1.symm)
  | case3 a b =>
    simp only [base64urlEncode, List.mem_cons, List.not_mem_nil, or_false]
    intro h
    rcases h with h1 | h1 | h1 <;> exact b64Char_ne_dot _ h1.symm
  | case4 a b d rest ih =>
    simp only [base64urlEncode, List.mem_cons]
    intro h
    rcases h with h1 | h1 | h1 | h1 | h1
    · exact b64Char_ne_dot _ h1.symm
    · exact b64Char_ne_dot _ h1.symm
    · exact b64Char_ne_dot _ h1.symm
    · exact b64Char_ne_dot _ h1.symm
    · exact ih h1

theorem base64urlEncode_append (xs : List Nat) :
    ∀ ys, xs.length % 3 = 0 →
      base64urlEncode (xs ++ ys) = base64urlEncode xs ++ base64urlEncode ys := by
  induction xs using base64urlEncode.induct with
  | case1 => intro ys _; simp [base64urlEncode]
  | case2 a => intro ys h; simp at h
  | case3 a b => intro ys h; simp at h
  | case4 a b d rest ih =>
    intro ys h
    have hr : rest.length % 3 = 0 := by
      simp only [List.length_cons] at h
      omega
    simp only [List.cons_append, base64urlEncode, List.append_eq]
    rw [ih ys hr]

theorem base64urlDecode_encode (xs : List Nat) (hb : ∀ b ∈ xs, b < 256) :
    base64urlDecode (base64urlEncode xs) = some xs := by
  induction xs using base64urlEncode.induct with
  | case1 => simp [base64urlEncode, base64urlDecode]
  | case2 a =>
    have ha : a < 256 := hb a (by simp)
    simp only [base64urlEncode, base64urlDecode]
    rw [b64CharDecode_b64Char _ (by omega), b64CharDecode_b64Char _ (by omega)]
    simp only [Option.some.injEq, List.cons.injEq, and_true]
    omega
  | case3 a b =>
    have ha : a < 256 := hb a (by simp)
    have hb2 : b < 256 := hb b (by simp)
    simp only [base64urlEncode, base64urlDecode]
    rw [b64CharDecode_b64Char _ (by omega), b64CharDecode_b64Char _ (by omega),
      b64CharDecode_b64Char _ (by omega)]
    simp only [Option.some.injEq, List.cons.injEq, and_true]
    constructor <;> omega
  | case4 a b d rest ih =>
    have ha : a < 256 := hb a (by simp)
    have hb2 : b < 256 := hb b (by simp)
    have hd : d < 256 := hb d (by simp)
    have hrest : ∀ x ∈ rest, x < 256 := fun x hx => hb x (by simp [hx])
    simp only [base64urlEncode, base64urlDecode]
    rw [b64CharDecode_b64Char _ (by omega), b64CharDecode_b64Char _ (by omega),
      b64CharDecode_b64Char _ (by omega), b64CharDecode_b64Char _ (by omega),
      ih hrest]
    simp only [Option.some.injEq, List.cons.injEq]
    refine ⟨by omega, by omega, by omega, trivial⟩

theorem base64urlEncode_length (xs : List Nat) :
    (base64urlEncode xs).length
      = 4 * (xs.length / 3)
        + (if xs.length % 3 = 0 then 0 else if xs.length % 3 = 1 then 2 else 3) := by
  induction xs using base64urlEncode.induct with
  | case1 => simp [base64urlEncode]
  | case2 a => simp [base64urlEncode]
  | case3 a b => simp [base64urlEncode]
  | case4 a b d rest ih =>
    simp only [base64urlEncode, List.length_cons, ih]
    split_ifs <;> omega

theorem takeWhile_append_of_all (p : Nat → Bool) (l1 l2 : List Nat) (a : Nat)
    (h1 : ∀ x ∈ l1, p x = true) (h2 : p a = false) :
    (l1 ++ a :: l2).takeWhile p = l1 := by
  induction l1 with
  | nil => simp [List.takeWhile_cons, h2]
  | cons x xs ih =>
    have hx : p x = true := h1 x (List.mem_cons_self x xs)
    simp only [List.cons_append, List.takeWhile_cons, hx]
    rw [ih (fun y hy => h1 y (List.mem_cons_of_mem _ hy))]
    simp

theorem lastSegment_append (xs t : List Nat) (ht : 46 ∉ t) :
    lastSegment (xs ++ 46 :: t) = t := by
  unfold lastSegment
  have hrev : (xs ++ 46 :: t).reverse = t.reverse ++ 46 :: xs.reverse := by
    simp
  rw [hrev]
  rw [takeWhile_append_of_all _ _ _ _ ?h1 (by simp)]
  · exact List.reverse_reverse t
  case h1 =>
    intro x hx
    have : x ∈ t := List.mem_reverse.mp hx
    have : x ≠ 46 := fun h => ht (h ▸ this)
    simpa using this

/-- The serialization reference test of `packet.rs`
(`it_serializes_to_same_as_javascript`, spec scenario S1): the builder
output for the fourteen-frame reference packet is the fixed byte
string, validating the OER model against the source's own test
vector. -/
theorem buildBytes_reference_vector :
    buildBytes 1 .prepare 99
      [ .connectionClose .noError [111, 111, 112],
        .connectionNewAddress [101, 120, 97, 109, 112, 108, 101, 46, 98, 108, 97, 104],
        .connectionMaxData 1000,
        .connectionDataBlocked 2000,
        .connectionMaxStreamId 3000,
        .connectionStreamIdBlocked 4000,
        .connectionAssetDetails [88, 89, 90] 9,
        .streamClose 76 .internalError [98, 108, 97, 104],
        .streamMoney 88 99,
        .streamMaxMoney 11 987 500,
        .streamMoneyBlocked 66 20000 6000,
        .streamData 34 9000 [104, 101, 108, 108, 111],
        .streamMaxData 35 8766,
        .streamDataBlocked 888 44444 ]
      = [1, 12, 1, 1, 1, 99, 1, 14, 1, 5, 1, 3, 111, 111, 112, 2, 13, 12, 101, 120,
         97, 109, 112, 108, 101, 46, 98, 108, 97, 104, 3, 3, 2, 3, 232, 4, 3, 2, 7,
         208, 5, 3, 2, 11, 184, 6, 3, 2, 15, 160, 7, 5, 3, 88, 89, 90, 9, 16, 8, 1,
         76, 2, 4, 98, 108, 97, 104, 17, 4, 1, 88, 1, 99, 18, 8, 1, 11, 2, 3, 219,
         2, 1, 244, 19, 8, 1, 66, 2, 78, 32, 2, 23, 112, 20, 11, 1, 34, 2, 35, 40,
         5, 104, 101, 108, 108, 111, 21, 5, 1, 35, 2, 34, 62, 22, 6, 2, 3, 120, 2,
         173, 156] := by
  decide

theorem encodeFrames_cons (f : Frame) (rest : List Frame) :
    encodeFrames (f :: rest) = encodeFrame f ++ encodeFrames rest := rfl

theorem encodeFrames_filter_unknown (frames : List Frame) :
    encodeFrames frames
      = encodeFrames (frames.filter (fun f => !(f == Frame.unknown))) := by
  induction frames with
  | nil => rfl
  | cons f rest ih =>
    by_cases hu : f = Frame.unknown
    · subst hu
      have h2 : (Frame.unknown :: rest).filter (fun f => !(f == Frame.unknown))
          = rest.filter (fun f => !(f == Frame.unknown)) := by
        simp [List.filter_cons]
      rw [h2, encodeFrames_cons, ih]
      rfl
    · have hne : (f == Frame.unknown) = false := by simp [hu]
      have h2 : (f :: rest).filter (fun g => !(g == Frame.unknown))
          = f :: rest.filter (fun g => !(g == Frame.unknown)) := by
        simp [List.filter_cons, hne]
      rw [h2, encodeFrames_cons, encodeFrames_cons, ih]

theorem filter_unknown_length_lt (l : List Frame) (hx : Frame.unknown ∈ l) :
    (l.filter (fun f => !(f == Frame.unknown))).length < l.length := by
  induction l with
  | nil => cases hx
  | cons a rest ih =>
    by_cases ha : a = Frame.unknown
    · subst ha
      have hle := List.length_filter_le (fun f => !(f == Frame.unknown)) rest
      have h2 : (Frame.unknown :: rest).filter (fun f => !(f == Frame.unknown))
          = rest.filter (fun f => !(f == Frame.unknown)) := by
        simp [List.filter_cons]
      rw [h2]
      simp only [List.length_cons]
      omega
    · have hne : (a == Frame.unknown) = false := by simp [ha]
      have hx2 : Frame.unknown ∈ rest := by
        rcases List.mem_cons.mp hx with h | h
        · exact absurd h.symm ha
        · exact h
      have h2 : (a :: rest).filter (fun g => !(g == Frame.unknown))
          = a :: rest.filter (fun g => !(g == Frame.unknown)) := by
        simp [List.filter_cons, hne]
      rw [h2]
      simp only [List.length_cons]
      have := ih hx2
      omega

/-- C3 (corrected).  The claim as frozen quantifies over every frame
list the builder accepts, which includes `Frame::Unknown`; the builder
counts such frames in `num_frames` but emits no bytes for them, so the
round trip fails there (see the counterexample).  Amended claim: for
every valid StreamPacket whose frames contain no `Unknown` frame —
any sequence, ILP packet type and prepare amount in `u64`, any frames
with the builder's Rust type invariants — decoding the bytes produced
by `StreamPacketBuilder::build` with `from_bytes_unencrypted` succeeds
and yields exactly the packet that was built. -/
theorem claim_C3_roundtrip (sequence prepareAmount : Nat) (t : IlpPacketType)
    (frames : List Frame) (hs : sequence < 2 ^ 64) (hp : prepareAmount < 2 ^ 64)
    (hn : frames.length < 2 ^ 64) (hv : ∀ f ∈ frames, frameValid f = true)
    (hu : Frame.unknown ∉ frames) :
    fromBytesUnencrypted (buildBytes sequence t prepareAmount frames)
      = .ok ⟨sequence, t, prepareAmount, frames⟩ :=
  fromBytesUnencrypted_buildBytes sequence prepareAmount t frames hs hp hn hv hu

/-- C3, counterexample: the builder accepts a packet whose frame list
is the single `Frame::Unknown`, but the serialized buffer does not
decode back to it — decoding fails with the `num_frames` mismatch
error, refuting the round-trip claim for builder-accepted frame lists
with `Unknown` frames. -/
theorem claim_C3_counterexample :
    fromBytesUnencrypted (buildBytes 1 .prepare 0 [Frame.unknown])
      = .error (.invalidPacket
          "Incorrect number of frames or unable to parse all frames") := by
  decide

theorem claim_C3_witness :
    (∀ f ∈ [Frame.streamMoney 1 1, Frame.connectionClose .noError [111, 111, 112]],
        frameValid f = true)
      ∧ Frame.unknown ∉ [Frame.streamMoney 1 1,
          Frame.connectionClose .noError [111, 111, 112]]
      ∧ fromBytesUnencrypted (buildBytes 1 .prepare 0
          [Frame.streamMoney 1 1, Frame.connectionClose .noError [111, 111, 112]])
          = .ok ⟨1, .prepare, 0,
              [Frame.streamMoney 1 1, Frame.connectionClose .noError [111, 111, 112]]⟩ :=
  ⟨by decide, by decide,
    claim_C3_roundtrip 1 0 .prepare
      [Frame.streamMoney 1 1, Frame.connectionClose .noError [111, 111, 112]]
      (by decide) (by decide) (by decide) (by decide) (by decide)⟩

/-- C10 (confirmed).  For every frame list containing at least one
`Unknown` frame (all frames within the builder's type invariants),
`StreamPacketBuilder::build` writes a `num_frames` prefix equal to the
full list length (`buildBytes` writes `putVarUint frames.length` by
definition) while emitting no bytes for the `Unknown` frames — the
frame section equals that of the list with `Unknown` filtered out —
so the serialized buffer fails to decode with the `num_frames`
mismatch error; the encode-then-decode round trip can hold only for
packets built without `Unknown` frames. -/
theorem claim_C10_unknown_breaks_roundtrip (sequence prepareAmount : Nat)
    (t : IlpPacketType) (frames : List Frame)
    (hs : sequence < 2 ^ 64) (hp : prepareAmount < 2 ^ 64) (hn : frames.length < 2 ^ 64)
    (hv : ∀ f ∈ frames, frameValid f = true) (hu : Frame.unknown ∈ frames) :
    encodeFrames frames
        = encodeFrames (frames.filter (fun f => !(f == Frame.unknown)))
      ∧ (frameList (encodeFrames frames)).length < frames.length
      ∧ fromBytesUnencrypted (buildBytes sequence t prepareAmount frames)
          = .error (.invalidPacket
              "Incorrect number of frames or unable to parse all frames") := by
  have hfl := frameList_encodeFrames frames hv
  have hlt : (frameList (encodeFrames frames)).length < frames.length := by
    rw [hfl]
    exact filter_unknown_length_lt frames hu
  refine ⟨encodeFrames_filter_unknown frames, hlt, ?_⟩
  have hhdr : parseStreamHeader (buildBytes sequence t prepareAmount frames)
      = .ok (t, sequence, prepareAmount, frames.length, encodeFrames frames) := by
    simp only [buildBytes, parseStreamHeader, List.append_assoc,
      ilpPacketType_ofByte_toByte, readVarUint_put _ _ hs, readVarUint_put _ _ hp,
      readVarUint_put _ _ hn, if_true]
  exact fromBytesUnencrypted_mismatch _ t sequence prepareAmount frames.length _
    hhdr (by omega)

theorem claim_C10_witness :
    (∀ f ∈ [Frame.streamMoney 1 1, Frame.unknown], frameValid f = true)
      ∧ Frame.unknown ∈ [Frame.streamMoney 1 1, Frame.unknown]
      ∧ encodeFrames [Frame.streamMoney 1 1, Frame.unknown]
          = encodeFrames ([Frame.streamMoney 1 1, Frame.unknown].filter
              (fun f => !(f == Frame.unknown)))
      ∧ (frameList (encodeFrames [Frame.streamMoney 1 1, Frame.unknown])).length
          < ([Frame.streamMoney 1 1, Frame.unknown] : List Frame).length
      ∧ fromBytesUnencrypted (buildBytes 7 .fulfill 3
            [Frame.streamMoney 1 1, Frame.unknown])
          = .error (.invalidPacket
              "Incorrect number of frames or unable to parse all frames") := by
  have h := claim_C10_unknown_breaks_roundtrip 7 3 .fulfill
    [Frame.streamMoney 1 1, Frame.unknown]
    (by decide) (by decide) (by decide) (by decide) (by decide)
  exact ⟨by decide, by decide, h.1, h.2.1, h.2.2⟩

/-- C4 (confirmed).  For every byte buffer whose StreamPacket header
parses (version, ILP type, sequence, prepare amount, `num_frames`) but
whose `num_frames` prefix differs from the number of frames the
`FrameIterator` yields over the remainder, `from_bytes_unencrypted`
fails with the `InvalidPacket` frame-count error instead of returning
a packet.  Trailing garbage after the last frame falls under this
whenever it parses as extra frames (inflating the count past
`num_frames`); trailing bytes the iterator cannot parse yield no frame
at all — the iterator logs and skips them — so they leave the count
unchanged and are outside the mismatch hypothesis. -/
theorem claim_C4_num_frames_mismatch (buf : List Nat) (t : IlpPacketType)
    (sequence prepareAmount numFrames : Nat) (rest : List Nat)
    (hh : parseStreamHeader buf = .ok (t, sequence, prepareAmount, numFrames, rest))
    (hc : (frameList rest).length ≠ numFrames) :
    fromBytesUnencrypted buf
      = .error (.invalidPacket
          "Incorrect number of frames or unable to parse all frames") :=
  fromBytesUnencrypted_mismatch buf t sequence prepareAmount numFrames rest hh hc

theorem claim_C4_witness :
    parseStreamHeader [1, 12, 1, 1, 1, 0, 1, 1] = .ok (.prepare, 1, 0, 1, [])
      ∧ (frameList ([] : List Nat)).length ≠ 1
      ∧ fromBytesUnencrypted [1, 12, 1, 1, 1, 0, 1, 1]
          = .error (.invalidPacket
              "Incorrect number of frames or unable to parse all frames") :=
  ⟨by decide, by decide,
    claim_C4_num_frames_mismatch [1, 12, 1, 1, 1, 0, 1, 1] .prepare 1 0 1 []
      (by decide) (by decide)⟩

/-- C9 (confirmed).  In `StreamMaxMoneyFrame::read_contents` (and
`StreamMoneyBlockedFrame::read_contents`), when the `receive_max`
(resp. `send_max`) field is encoded as a var octet string longer than
eight bytes, parsing succeeds and the field decodes as exactly
`u64::MAX`; when that field's var octet string is between one and
eight bytes, it decodes to its canonical big-endian numeric value, as
do the other var-uint fields (`stream_id`, `total_received`,
`total_sent`). -/
theorem claim_C9_saturating_read (streamId totalReceived : Nat)
    (receiveMaxBytes : List Nat) (hs : streamId < 2 ^ 64) (ht : totalReceived < 2 ^ 64) :
    (8 < receiveMaxBytes.length →
        streamMaxMoneyReadContents
            (putVarUint streamId ++ putVarOctetString receiveMaxBytes
              ++ putVarUint totalReceived)
            = some (.streamMaxMoney streamId u64Max totalReceived)
          ∧ streamMoneyBlockedReadContents
            (putVarUint streamId ++ putVarOctetString receiveMaxBytes
              ++ putVarUint totalReceived)
            = some (.streamMoneyBlocked streamId u64Max totalReceived))
      ∧ (1 ≤ receiveMaxBytes.length → receiveMaxBytes.length ≤ 8 →
          streamMaxMoneyReadContents
              (putVarUint streamId ++ putVarOctetString receiveMaxBytes
                ++ putVarUint totalReceived)
              = some (.streamMaxMoney streamId (beBytesToNat receiveMaxBytes)
                  totalReceived)
            ∧ streamMoneyBlockedReadContents
              (putVarUint streamId ++ putVarOctetString receiveMaxBytes
                ++ putVarUint totalReceived)
              = some (.streamMoneyBlocked streamId (beBytesToNat receiveMaxBytes)
                  totalReceived)) := by
  have hread : readVarUint (putVarUint streamId
      ++ (putVarOctetString receiveMaxBytes ++ putVarUint totalReceived))
      = some (streamId, putVarOctetString receiveMaxBytes ++ putVarUint totalReceived) :=
    readVarUint_put _ _ hs
  constructor
  · intro h9
    have hsat : saturatingReadVarUint
        (putVarOctetString receiveMaxBytes ++ putVarUint totalReceived)
        = some (u64Max, putVarUint totalReceived) := by
      simp only [saturatingReadVarUint, readVarOctetString_put, if_pos h9]
    constructor
    · rw [List.append_assoc]
      simp only [streamMaxMoneyReadContents, hread, hsat, readVarUint_put_nil _ ht]
    · rw [List.append_assoc]
      simp only [streamMoneyBlockedReadContents, hread, hsat, readVarUint_put_nil _ ht]
  · intro h1 h8
    have hsat : saturatingReadVarUint
        (putVarOctetString receiveMaxBytes ++ putVarUint totalReceived)
        = some (beBytesToNat receiveMaxBytes, putVarUint totalReceived) := by
      have hcond : ¬(receiveMaxBytes.length = 0 ∨ 8 < receiveMaxBytes.length) := by
        push_neg
        omega
      simp only [saturatingReadVarUint, readVarOctetString_put,
        if_neg (show ¬8 < receiveMaxBytes.length by omega), readVarUint]
      rw [if_neg hcond]
    constructor
    · rw [List.append_assoc]
      simp only [streamMaxMoneyReadContents, hread, hsat, readVarUint_put_nil _ ht]
    · rw [List.append_assoc]
      simp only [streamMoneyBlockedReadContents, hread, hsat, readVarUint_put_nil _ ht]

theorem claim_C9_witness :
    8 < ([1, 2, 3, 4, 5, 6, 7, 8, 9] : List Nat).length
      ∧ streamMaxMoneyReadContents
          (putVarUint 123 ++ putVarOctetString [1, 2, 3, 4, 5, 6, 7, 8, 9]
            ++ putVarUint 123)
          = some (.streamMaxMoney 123 u64Max 123)
      ∧ streamMoneyBlockedReadContents
          (putVarUint 123 ++ putVarOctetString [1, 2, 3, 4, 5, 6, 7, 8, 9]
            ++ putVarUint 123)
          = some (.streamMoneyBlocked 123 u64Max 123)
      ∧ streamMaxMoneyReadContents
          (putVarUint 123 ++ putVarOctetString [3, 219] ++ putVarUint 123)
          = some (.streamMaxMoney 123 987 123) := by
  have h := claim_C9_saturating_read 123 123 [1, 2, 3, 4, 5, 6, 7, 8, 9]
    (by decide) (by decide)
  have h2 := claim_C9_saturating_read 123 123 [3, 219] (by decide) (by decide)
  have h9 := h.1 (by decide)
  refine ⟨by decide, h9.1, h9.2, ?_⟩
  have := (h2.2 (by decide) (by decide)).1
  simpa [beBytesToNat] using this

/-- C7 (confirmed).  A controller created with
`new(start_amount, increase_amount, decrease_factor)` that stays in
SlowStart: after `N` `fulfill(id)` calls, each matching an immediately
preceding `prepare(id, amount)` with a positive amount and with no
rejects in between, `max_in_flight` equals
`min(start_amount * 2 ^ N, u64::MAX)`, every doubling saturating at
`u64::MAX`. -/
theorem claim_C7_slow_start_doubling (startAmount increaseAmount decreaseFactor : Nat)
    (ps : List (Nat × Nat)) (hstart : startAmount < 2 ^ 64)
    (hpos : ∀ p ∈ ps, 0 < p.2) :
    (applyCcOps (CongestionController.new startAmount increaseAmount decreaseFactor)
        (roundOps ps)).maxInFlight
      = min (startAmount * 2 ^ ps.length) u64Max :=
  (applyCcOps_roundOps_maxInFlight ps
    (CongestionController.new startAmount increaseAmount decreaseFactor) rfl
    (show startAmount ≤ u64Max by unfold u64Max; omega) hpos).1

theorem claim_C7_witness :
    1000 < 2 ^ 64 ∧ (∀ p ∈ [(1, 5), (2, 7)], 0 < p.2)
      ∧ (applyCcOps (CongestionController.new 1000 1000 2)
          (roundOps [(1, 5), (2, 7)])).maxInFlight = min (1000 * 2 ^ 2) u64Max :=
  ⟨by decide, by decide,
    claim_C7_slow_start_doubling 1000 1000 2 [(1, 5), (2, 7)] (by decide) (by decide)⟩

/-- C6, counterexample: a state reachable from
`new(1000, 1000, 2.0)` by the single call `prepare(1, 2000)` has
`amount_in_flight = 2000 > max_in_flight = 1000`, so
`get_max_amount()`'s subtraction `max_in_flight - amount_in_flight`
underflows (modelled as `none`); `prepare` does not bound its amount by
the window, refuting "never underflows" over arbitrary call
sequences. -/
theorem claim_C6_counterexample :
    (applyCcOps (CongestionController.new 1000 1000 2)
        [.prepareOp 1 2000]).getMaxAmount? = none := by
  decide

/-- C6 (corrected).  Amended claim: whenever
`amount_in_flight ≤ max_in_flight`, `get_max_amount()` is well-defined
and returns `min(max_in_flight - amount_in_flight, max_packet_amount)`
when a `max_packet_amount` is set and
`max_in_flight - amount_in_flight` otherwise; but the subtraction can
underflow in states reachable by prepare/fulfill/reject sequences,
because `prepare` accepts amounts beyond the window (see the
counterexample). -/
theorem claim_C6_get_max_amount (c : CongestionController)
    (h : c.amountInFlight ≤ c.maxInFlight) :
    c.getMaxAmount?
      = some (match c.maxPacketAmount with
          | some maxPacketAmount => min (c.maxInFlight - c.amountInFlight) maxPacketAmount
          | none => c.maxInFlight - c.amountInFlight) := by
  unfold CongestionController.getMaxAmount?
  rw [if_neg (by omega)]
  cases c.maxPacketAmount <;> rfl

theorem claim_C6_witness :
    (applyCcOps (CongestionController.new 1000 1000 2)
          [.prepareOp 1 400]).amountInFlight
        ≤ (applyCcOps (CongestionController.new 1000 1000 2)
            [.prepareOp 1 400]).maxInFlight
      ∧ (applyCcOps (CongestionController.new 1000 1000 2)
          [.prepareOp 1 400]).getMaxAmount? = some 600 :=
  ⟨by decide,
    claim_C6_get_max_amount
      (applyCcOps (CongestionController.new 1000 1000 2) [.prepareOp 1 400])
      (by decide)⟩

/-- C5, counterexample: on this controller, `reject(1, "F08")` leaves
`max_packet_amount` at 100 — it is not lowered, neither from a data
payload (`reject` receives only the code string) nor by halving,
refuting the claim at this input. -/
theorem claim_C5_counterexample :
    (c5ExampleController.reject 1 "F08").maxPacketAmount = some 100 := by
  decide

/-- C5 (corrected).  Amended claim: `reject` special-cases only the
code `"T04"`.  A `reject(id, "F08")` call leaves `max_packet_amount`,
`max_in_flight` and the state unchanged for every controller state;
when the id matches a recorded prepare it only removes the mapping and
decrements `amount_in_flight` by the recorded amount (F08 handling is
not implemented in `src/src/stream/congestion.rs`). -/
theorem claim_C5_f08_reject (c : CongestionController) (id : Nat) :
    ((c.reject id "F08").maxPacketAmount = c.maxPacketAmount
        ∧ (c.reject id "F08").maxInFlight = c.maxInFlight
        ∧ (c.reject id "F08").state = c.state)
      ∧ ∀ amount, packetsLookup c.packets id = some amount →
          (c.reject id "F08").packets = packetsErase c.packets id
            ∧ (c.reject id "F08").amountInFlight = c.amountInFlight - amount := by
  unfold CongestionController.reject
  cases hl : packetsLookup c.packets id with
  | none => simp
  | some amount =>
    dsimp only
    rw [if_neg (by decide)]
    refine ⟨⟨rfl, rfl, rfl⟩, ?_⟩
    intro a ha
    injection ha with ha
    subst ha
    exact ⟨rfl, rfl⟩

theorem claim_C5_witness :
    packetsLookup c5ExampleController.packets 1 = some 50
      ∧ (c5ExampleController.reject 1 "F08").packets
          = packetsErase c5ExampleController.packets 1
      ∧ (c5ExampleController.reject 1 "F08").amountInFlight
          = c5ExampleController.amountInFlight - 50 :=
  ⟨by decide,
    ((claim_C5_f08_reject c5ExampleController 1).2 50 (by decide)).1,
    ((claim_C5_f08_reject c5ExampleController 1).2 50 (by decide)).2⟩

theorem rederive_of_parts (hmacSha256 : List Nat → List Nat → List Nat)
    (G base r tag : List Nat) (hr : r.length = 18) (hrb : ∀ b ∈ r, b < 256)
    (htagLen : tag.length = 14) (htagBytes : ∀ b ∈ tag, b < 256)
    (htag : tag = (hmacSha256 (hmacSha256 G r)
        (base ++ 46 :: base64urlEncode r)).take 14) :
    rederiveSecret hmacSha256 G
        ((base ++ 46 :: base64urlEncode r) ++ base64urlEncode tag)
      = some (hmacSha256 G r) := by
  have hdots : 46 ∉ base64urlEncode r ++ base64urlEncode tag := by
    intro hmem
    rcases List.mem_append.mp hmem with h | h
    · exact dot_not_mem_base64urlEncode r h
    · exact dot_not_mem_base64urlEncode tag h
  have hseg : lastSegment ((base ++ 46 :: base64urlEncode r) ++ base64urlEncode tag)
      = base64urlEncode r ++ base64urlEncode tag := by
    have hshape : (base ++ 46 :: base64urlEncode r) ++ base64urlEncode tag
        = base ++ 46 :: (base64urlEncode r ++ base64urlEncode tag) := by
      simp
    rw [hshape]
    exact lastSegment_append base _ hdots
  have hdec : base64urlDecode (base64urlEncode r ++ base64urlEncode tag)
      = some (r ++ tag) := by
    rw [← base64urlEncode_append r tag (by rw [hr])]
    refine base64urlDecode_encode (r ++ tag) ?_
    intro b hb
    rcases List.mem_append.mp hb with h | h
    · exact hrb b h
    · exact htagBytes b h
  have hetagLen : (base64urlEncode tag).length = 19 := by
    rw [base64urlEncode_length, htagLen]
    decide
  have h32 : (r ++ tag).length = 32 := by
    simp [hr, htagLen]
  have htake : (r ++ tag).take 18 = r := by
    have := List.take_left r tag
    rw [hr] at this
    exact this
  have hdrop : (r ++ tag).drop 18 = tag := by
    have := List.drop_left r tag
    rw [hr] at this
    exact this
  have hpre : ((base ++ 46 :: base64urlEncode r) ++ base64urlEncode tag).take
      (((base ++ 46 :: base64urlEncode r) ++ base64urlEncode tag).length - 19)
      = base ++ 46 :: base64urlEncode r := by
    have hlen' : ((base ++ 46 :: base64urlEncode r) ++ base64urlEncode tag).length - 19
        = (base ++ 46 :: base64urlEncode r).length := by
      simp [List.length_append, hetagLen]
      omega
    rw [hlen', List.take_left]
  unfold rederiveSecret
  rw [hseg, hdec]
  dsimp only
  rw [if_pos h32, htake, hdrop, hpre, if_pos htag.symm]

theorem rederive_suffix_none (hmacSha256 : List Nat → List Nat → List Nat)
    (G D suffix : List Nat) (hdot : 46 ∉ suffix)
    (hforge : ∀ bs, base64urlDecode suffix = some bs → bs.length = 32 →
        (hmacSha256 (hmacSha256 G (bs.take 18))
            ((withSuffix D suffix).take ((withSuffix D suffix).length - 19))).take 14
          ≠ bs.drop 18) :
    rederiveSecret hmacSha256 G (withSuffix D suffix) = none := by
  have hseg : lastSegment (withSuffix D suffix) = suffix := by
    unfold withSuffix
    exact lastSegment_append D suffix hdot
  unfold rederiveSecret
  rw [hseg]
  cases hdec2 : base64urlDecode suffix with
  | none => rfl
  | some bs =>
    show (if bs.length = 32 then
        (if (hmacSha256 (hmacSha256 G (bs.take 18))
              ((withSuffix D suffix).take ((withSuffix D suffix).length - 19))).take 14
            = bs.drop 18
         then some (hmacSha256 G (bs.take 18)) else none)
      else none) = none
    by_cases h32 : bs.length = 32
    · rw [if_pos h32, if_neg (hforge bs hdec2 h32)]
    · rw [if_neg h32]

/-- C2 (confirmed).  For every base ILP address and every connection
generator (any `hmac_sha256` producing 32 byte-valued bytes, any
secret-generator value, any 18-byte random token): if
`generate_address_and_secret` returns `(D, s)` then `rederive_secret(D)`
succeeds and returns exactly `s`; and for every non-empty dot-free
suffix appended to `D` as a new address segment, `rederive_secret` on
the extended address fails — unconditionally whenever the suffix is not
base64url of exactly 32 bytes, and, when it is, under the
collision-freeness of the truncated HMAC tag (the hypothesis `hforge`,
the idealized-MAC reading the spec takes: a suffix embedding a valid
14-byte forgery over the extended prefix is exactly an HMAC tag
collision). -/
theorem claim_C2_address_roundtrip (hmacSha256 : List Nat → List Nat → List Nat)
    (hlen : ∀ k m, (hmacSha256 k m).length = 32)
    (hbytes : ∀ k m, ∀ b ∈ hmacSha256 k m, b < 256)
    (secretGenerator baseAddress randomBytes : List Nat)
    (hr : randomBytes.length = 18) (hrb : ∀ b ∈ randomBytes, b < 256) :
    rederiveSecret hmacSha256 secretGenerator
        (generateAddressAndSecret hmacSha256 secretGenerator baseAddress randomBytes).1
      = some (generateAddressAndSecret hmacSha256 secretGenerator
          baseAddress randomBytes).2
      ∧ ∀ suffix : List Nat, suffix ≠ [] → 46 ∉ suffix →
          (∀ bs, base64urlDecode suffix = some bs → bs.length = 32 →
            (hmacSha256 (hmacSha256 secretGenerator (bs.take 18))
                ((withSuffix (generateAddressAndSecret hmacSha256 secretGenerator
                    baseAddress randomBytes).1 suffix).take
                  ((withSuffix (generateAddressAndSecret hmacSha256 secretGenerator
                      baseAddress randomBytes).1 suffix).length - 19))).take 14
              ≠ bs.drop 18) →
          rederiveSecret hmacSha256 secretGenerator
            (withSuffix (generateAddressAndSecret hmacSha256 secretGenerator
                baseAddress randomBytes).1 suffix)
            = none := by
  constructor
  · exact rederive_of_parts hmacSha256 secretGenerator baseAddress randomBytes
      ((hmacSha256 (hmacSha256 secretGenerator randomBytes)
        (baseAddress ++ 46 :: base64urlEncode randomBytes)).take 14)
      hr hrb (by simp [List.length_take, hlen])
      (fun b hb => hbytes _ _ b (List.take_subset _ _ hb)) rfl
  · intro suffix _ hdot hforge
    exact rederive_suffix_none hmacSha256 secretGenerator _ suffix hdot hforge

theorem claim_C2_witness :
    rederiveSecret c2Hmac []
        (generateAddressAndSecret c2Hmac [] [101, 120] (List.replicate 18 0)).1
      = some (generateAddressAndSecret c2Hmac [] [101, 120] (List.replicate 18 0)).2
      ∧ rederiveSecret c2Hmac []
          (withSuffix
            (generateAddressAndSecret c2Hmac [] [101, 120] (List.replicate 18 0)).1
            [101, 120, 116, 114, 97])
        = none := by
  have h := claim_C2_address_roundtrip c2Hmac (fun k m => by simp [c2Hmac])
    (fun k m b hb => by
      simp only [c2Hmac] at hb
      have := List.eq_of_mem_replicate hb
      omega)
    [] [101, 120] (List.replicate 18 0) (by simp)
    (fun b hb => by
      have := List.eq_of_mem_replicate hb
      omega)
  refine ⟨h.1, h.2 [101, 120, 116, 114, 97] (by decide) (by decide) ?_⟩
  intro bs hbs _
  rw [show base64urlDecode [101, 120, 116, 114, 97] = none from by decide] at hbs
  exact Option.noConfusion hbs

/-- C1 (confirmed).  For every Prepare whose data decrypts (`dec`) and
parses as a StreamPacket under the shared secret: `receive_money`
returns a Fulfill — whose fulfillment is
`generate_fulfillment(shared_secret, prepare.data)` and whose data is
the encrypted response StreamPacket of type Fulfill with the same
sequence — exactly when SHA-256 of that fulfillment equals the
Prepare's execution condition AND `prepare.amount` is at least the
decrypted packet's `prepare_amount`; in every other such case it
returns a Reject with code `F99_APPLICATION_ERROR` whose data is the
encrypted response StreamPacket of type Reject with the same
sequence. -/
theorem claim_C1_receive_money (hmacSha256 : List Nat → List Nat → List Nat)
    (hashSha256 : List Nat → List Nat) (enc : List Nat → List Nat → List Nat)
    (dec : List Nat → List Nat → Option (List Nat))
    (sharedSecret clientAddress : List Nat) (prepare : IlpPrepare)
    (plaintext : List Nat) (packet : ParsedPacket)
    (hdec : dec sharedSecret prepare.data = some plaintext)
    (hparse : fromBytesUnencrypted plaintext = .ok packet) :
    (hashSha256 (generateFulfillment hmacSha256 sharedSecret prepare.data)
          = prepare.executionCondition ∧ packet.prepareAmount ≤ prepare.amount →
        receiveMoney hmacSha256 hashSha256 enc dec sharedSecret clientAddress prepare
          = .ok ⟨generateFulfillment hmacSha256 sharedSecret prepare.data,
              enc sharedSecret (buildBytes packet.sequence .fulfill prepare.amount
                (responseFramesFor packet.frames))⟩)
      ∧ (¬(hashSha256 (generateFulfillment hmacSha256 sharedSecret prepare.data)
              = prepare.executionCondition ∧ packet.prepareAmount ≤ prepare.amount) →
          receiveMoney hmacSha256 hashSha256 enc dec sharedSecret clientAddress prepare
            = .error ⟨"F99", [], clientAddress,
                enc sharedSecret (buildBytes packet.sequence .reject prepare.amount
                  (responseFramesFor packet.frames))⟩) := by
  have hfe : fromEncrypted dec sharedSecret prepare.data = .ok packet := by
    unfold fromEncrypted
    rw [hdec]
    exact hparse
  have hred : receiveMoney hmacSha256 hashSha256 enc dec sharedSecret clientAddress
        prepare
      = if hashSha256 (generateFulfillment hmacSha256 sharedSecret prepare.data)
            = prepare.executionCondition ∧ packet.prepareAmount ≤ prepare.amount
        then Except.ok ⟨generateFulfillment hmacSha256 sharedSecret prepare.data,
            enc sharedSecret (buildBytes packet.sequence .fulfill prepare.amount
              (responseFramesFor packet.frames))⟩
        else Except.error ⟨"F99", [], clientAddress,
            enc sharedSecret (buildBytes packet.sequence .reject prepare.amount
              (responseFramesFor packet.frames))⟩ := by
    unfold receiveMoney
    rw [hfe]
  constructor
  · intro hcond
    rw [hred, if_pos hcond]
  · intro hcond
    rw [hred, if_neg hcond]

theorem claim_C1_witness :
    c1Dec [] c1Prepare.data = some c1Data
      ∧ fromBytesUnencrypted c1Data = .ok ⟨5, .prepare, 0, [Frame.streamMoney 1 1]⟩
      ∧ c1Hash (generateFulfillment c1Hmac [] c1Prepare.data)
          = c1Prepare.executionCondition
      ∧ receiveMoney c1Hmac c1Hash c1Enc c1Dec [] [42] c1Prepare
          = .ok ⟨List.replicate 32 7,
              buildBytes 5 .fulfill 100 [Frame.streamMaxMoney 1 u64Max 0]⟩ :=
  ⟨rfl, by decide, rfl,
    (claim_C1_receive_money c1Hmac c1Hash c1Enc c1Dec [] [42] c1Prepare c1Data
        ⟨5, .prepare, 0, [Frame.streamMoney 1 1]⟩ rfl (by decide)).1
      ⟨rfl, by decide⟩⟩

theorem handleReject_final (dec : List Nat → List Nat → Option (List Nat))
    (st : SenderState) (amount : Nat) (rj : IlpReject) (hcode : rj.code = "F00") :
    ∃ st', handleReject dec st amount rj = st'
      ∧ st'.error = some (.sendMoneyError "F00" rj.message)
      ∧ st'.sourceAmount = st.sourceAmount + amount
      ∧ st'.sentPrepares = st.sentPrepares
      ∧ st'.sequence = st.sequence
      ∧ st'.state = st.state := by
  unfold handleReject
  rw [hcode]
  rw [if_neg (by decide : ¬ isTemporaryClass "F00" = true)]
  rw [if_neg (by decide : ¬ ("F00" : String) = "F08")]
  rw [if_neg (by decide : ¬ ("F00" : String) = "F99")]
  refine ⟨_, rfl, ?_, ?_, ?_, ?_, ?_⟩ <;>
    (try dsimp only) <;>
    first
      | rfl
      | (split <;> first | rfl | (split <;> rfl))

theorem senderIter_of_error (hmacSha256 : List Nat → List Nat → List Nat)
    (hashSha256 : List Nat → List Nat) (enc : List Nat → List Nat → List Nat)
    (dec : List Nat → List Nat → Option (List Nat)) (randomCondition : List Nat)
    (handler : IlpPrepare → Except IlpReject IlpFulfill) (st : SenderState)
    (e : SendError) (he : st.error = some e) :
    senderIter hmacSha256 hashSha256 enc dec randomCondition handler st
      = .inr (.error e) := by
  unfold senderIter
  rw [he]

theorem senderIter_of_send (hmacSha256 : List Nat → List Nat → List Nat)
    (hashSha256 : List Nat → List Nat) (enc : List Nat → List Nat → List Nat)
    (dec : List Nat → List Nat → Option (List Nat)) (randomCondition : List Nat)
    (handler : IlpPrepare → Except IlpReject IlpFulfill) (st : SenderState)
    (he : st.error = none) (hs : st.sourceAmount ≠ 0) :
    senderIter hmacSha256 hashSha256 enc dec randomCondition handler st
      = .inl (trySendMoney hmacSha256 hashSha256 enc dec handler st) := by
  unfold senderIter
  rw [he]
  dsimp only
  rw [if_neg hs]

theorem trySendMoney_rejected (hmacSha256 : List Nat → List Nat → List Nat)
    (hashSha256 : List Nat → List Nat) (enc : List Nat → List Nat → List Nat)
    (dec : List Nat → List Nat → Option (List Nat))
    (handler : IlpPrepare → Except IlpReject IlpFulfill) (st : SenderState)
    (rj : IlpReject) (hhandler : ∀ p, handler p = .error rj)
    (hpos : min st.sourceAmount st.congestion.getMaxAmount ≠ 0) :
    trySendMoney hmacSha256 hashSha256 enc dec handler st
      = handleReject dec
          { st with
            sourceAmount :=
              st.sourceAmount - min st.sourceAmount st.congestion.getMaxAmount
            sequence := st.sequence + 1
            congestion :=
              st.congestion.prepare (min st.sourceAmount st.congestion.getMaxAmount)
            sentPrepares := st.sentPrepares
              ++ [(st.sequence, min st.sourceAmount st.congestion.getMaxAmount)] }
          (min st.sourceAmount st.congestion.getMaxAmount) rj := by
  unfold trySendMoney
  rw [if_neg hpos]
  dsimp only
  rw [hhandler]

theorem senderRun_step (hmacSha256 : List Nat → List Nat → List Nat)
    (hashSha256 : List Nat → List Nat) (enc : List Nat → List Nat → List Nat)
    (dec : List Nat → List Nat → Option (List Nat)) (randomCondition : List Nat)
    (handler : IlpPrepare → Except IlpReject IlpFulfill) (fuel : Nat) (st : SenderState) :
    senderRun hmacSha256 hashSha256 enc dec randomCondition handler (fuel + 1) st
      = match senderIter hmacSha256 hashSha256 enc dec randomCondition handler st with
        | .inr result => some (result, st)
        | .inl st2 =>
          senderRun hmacSha256 hashSha256 enc dec randomCondition handler fuel st2 := rfl

/-- C8 (confirmed).  If the request handler rejects every Prepare with
the final ILP code `F00_BAD_REQUEST`, then `send_money` with any
positive `source_amount` sends exactly one Prepare (the transcript
after the first loop iteration is `[(sequence 1, source_amount)]`),
latches a `SendMoneyError`, never retries, and returns that error at
the next loop-iteration boundary; the rejected amount is restored to
`source_amount` before the error is returned. -/
theorem claim_C8_terminal_reject (hmacSha256 : List Nat → List Nat → List Nat)
    (hashSha256 : List Nat → List Nat) (enc : List Nat → List Nat → List Nat)
    (dec : List Nat → List Nat → Option (List Nat)) (randomCondition : List Nat)
    (handler : IlpPrepare → Except IlpReject IlpFulfill) (rj : IlpReject)
    (sourceAccount destinationAccount sharedSecret : List Nat)
    (sentAssetScale : Nat) (sentAssetCode : List Nat) (sourceAmount : Nat)
    (hsrc : 0 < sourceAmount) (hhandler : ∀ p, handler p = .error rj)
    (hcode : rj.code = "F00") :
    ∃ st1,
      senderIter hmacSha256 hashSha256 enc dec randomCondition handler
          (initSender sourceAccount destinationAccount sharedSecret sentAssetScale
            sentAssetCode sourceAmount) = .inl st1
        ∧ st1.error = some (.sendMoneyError "F00" rj.message)
        ∧ st1.sentPrepares = [(1, sourceAmount)]
        ∧ st1.sourceAmount = sourceAmount
        ∧ senderIter hmacSha256 hashSha256 enc dec randomCondition handler st1
            = .inr (.error (.sendMoneyError "F00" rj.message))
        ∧ ∀ fuel, 2 ≤ fuel →
            senderRun hmacSha256 hashSha256 enc dec randomCondition handler fuel
                (initSender sourceAccount destinationAccount sharedSecret sentAssetScale
                  sentAssetCode sourceAmount)
              = some (.error (.sendMoneyError "F00" rj.message), st1) := by
  have hmin : min (initSender sourceAccount destinationAccount sharedSecret
        sentAssetScale sentAssetCode sourceAmount).sourceAmount
      (initSender sourceAccount destinationAccount sharedSecret sentAssetScale
        sentAssetCode sourceAmount).congestion.getMaxAmount = sourceAmount := by
    show min sourceAmount
        (ClientCongestion.new sourceAmount (sourceAmount / 10) 2).getMaxAmount
      = sourceAmount
    show min sourceAmount (sourceAmount - 0) = sourceAmount
    omega
  have htry := trySendMoney_rejected hmacSha256 hashSha256 enc dec handler
    (initSender sourceAccount destinationAccount sharedSecret sentAssetScale
      sentAssetCode sourceAmount) rj hhandler (by rw [hmin]; omega)
  rw [hmin] at htry
  obtain ⟨st1, heq1, herr, hsrc1, hsent1, hseq1, hstate1⟩ :=
    handleReject_final dec
      { initSender sourceAccount destinationAccount sharedSecret sentAssetScale
          sentAssetCode sourceAmount with
        sourceAmount :=
          (initSender sourceAccount destinationAccount sharedSecret sentAssetScale
            sentAssetCode sourceAmount).sourceAmount - sourceAmount
        sequence :=
          (initSender sourceAccount destinationAccount sharedSecret sentAssetScale
            sentAssetCode sourceAmount).sequence + 1
        congestion :=
          (initSender sourceAccount destinationAccount sharedSecret sentAssetScale
            sentAssetCode sourceAmount).congestion.prepare sourceAmount
        sentPrepares :=
          (initSender sourceAccount destinationAccount sharedSecret sentAssetScale
            sentAssetCode sourceAmount).sentPrepares
            ++ [((initSender sourceAccount destinationAccount sharedSecret
                sentAssetScale sentAssetCode sourceAmount).sequence, sourceAmount)] }
      sourceAmount rj hcode
  have hi0 : senderIter hmacSha256 hashSha256 enc dec randomCondition handler
      (initSender sourceAccount destinationAccount sharedSecret sentAssetScale
        sentAssetCode sourceAmount) = .inl st1 := by
    rw [senderIter_of_send hmacSha256 hashSha256 enc dec randomCondition handler _
      rfl (show (initSender sourceAccount destinationAccount sharedSecret
        sentAssetScale sentAssetCode sourceAmount).sourceAmount ≠ 0 from by
          show sourceAmount ≠ 0
          omega)]
    rw [htry, heq1]
  have hsrcF : st1.sourceAmount = sourceAmount := by
    rw [hsrc1]
    show (initSender sourceAccount destinationAccount sharedSecret sentAssetScale
        sentAssetCode sourceAmount).sourceAmount - sourceAmount + sourceAmount
      = sourceAmount
    show sourceAmount - sourceAmount + sourceAmount = sourceAmount
    omega
  have hsentF : st1.sentPrepares = [(1, sourceAmount)] := by
    rw [hsent1]
    rfl
  have hi1 : senderIter hmacSha256 hashSha256 enc dec randomCondition handler st1
      = .inr (.error (.sendMoneyError "F00" rj.message)) :=
    senderIter_of_error hmacSha256 hashSha256 enc dec randomCondition handler st1 _ herr
  refine ⟨st1, hi0, herr, hsentF, hsrcF, hi1, ?_⟩
  intro fuel hfuel
  obtain ⟨f, rfl⟩ : ∃ f, fuel = f + 2 := ⟨fuel - 2, by omega⟩
  rw [show f + 2 = (f + 1) + 1 from rfl, senderRun_step, hi0]
  dsimp only
  rw [senderRun_step, hi1]

theorem claim_C8_witness :
    0 < 100
      ∧ (∀ p, c8Handler p = .error ⟨"F00", [106], [], []⟩)
      ∧ ∃ st1,
          senderIter c8Hmac c8Hash c8Enc c8Dec [] c8Handler
              (initSender [] [] [] 9 [88] 100) = .inl st1
            ∧ st1.error = some (.sendMoneyError "F00" [106])
            ∧ st1.sentPrepares = [(1, 100)]
            ∧ st1.sourceAmount = 100
            ∧ senderIter c8Hmac c8Hash c8Enc c8Dec [] c8Handler st1
                = .inr (.error (.sendMoneyError "F00" [106]))
            ∧ ∀ fuel, 2 ≤ fuel →
                senderRun c8Hmac c8Hash c8Enc c8Dec [] c8Handler fuel
                    (initSender [] [] [] 9 [88] 100)
                  = some (.error (.sendMoneyError "F00" [106]), st1) :=
  ⟨by decide, fun _ => rfl,
    claim_C8_terminal_reject c8Hmac c8Hash c8Enc c8Dec [] c8Handler
      ⟨"F00", [106], [], []⟩ [] [] [] 9 [88] 100 (by decide) (fun _ => rfl) rfl⟩
